import Mathlib

/-!
Verification development for the CHESSO match-session server
(`server.js` plus its pluggable game store).

The server code is embedded shallowly: every definition below mirrors one
JavaScript function of the source.  The chess rules engine (`chess.js`) is an
external collaborator of the repository; it is modelled as an abstract
interface (`Engine`), exactly the operations the server calls on it
(`turn`, `isGameOver`, `move`, `fen`, constructor-from-FEN, `history().length`,
and the AI move picker whose internal randomness the interface absorbs).
Machine integers are modelled as `Int`/`Nat`; timestamps (`Date.now()`) are
explicit `now : Nat` parameters, one per synchronous stretch of the handler;
`setTimeout` handles are explicit identifiers threaded through the state.
-/

namespace Chesso

/-- Chess seat color, the JS strings `white` / `black`. -/
inductive Color where
  | white
  | black
deriving DecidableEq, Repr

/-- Promotion piece letters accepted by `chess.move`; the server only ever
passes the queen. -/
inductive Promo where
  | q
  | r
  | b
  | n
deriving DecidableEq, Repr

/-- The forced terminal result tags the server writes into `room.forcedResult`. -/
inductive ForcedResult where
  | white_wins_by_timeout
  | black_wins_by_timeout
  | white_wins_by_forfeit
  | black_wins_by_forfeit
  | white_wins_by_resign
  | black_wins_by_resign
  | draw_agreed
deriving DecidableEq, Repr

/-- `getOpponentColor` of the source. -/
def getOpponentColor : Color → Color
  | .white => .black
  | .black => .white

/-- The `room.players` record: each seat holds an address or `null`. -/
structure Players where
  white : Option String
  black : Option String
deriving DecidableEq, Repr

/-- Seat lookup, the JS `room.players[color]`. -/
def Players.get (ps : Players) : Color → Option String
  | .white => ps.white
  | .black => ps.black

/-- The `room.clock` record.  Millisecond amounts are JS numbers, modelled as
`Int`; `lastTickAt` is a `Date.now()` timestamp or `null`. -/
structure Clock where
  whiteMs : Int
  blackMs : Int
  incrementMs : Int
  running : Bool
  lastTickAt : Option Nat
deriving DecidableEq, Repr

/-- A chat roster entry (`{username, avatar}`). -/
structure Member where
  username : String
  avatar : String
deriving DecidableEq, Repr

/-- A chat log entry pushed by `pushChatMessage`.  The JS field `at` is
renamed `sentAt` (`at` is a Lean keyword). -/
structure Message where
  id : String
  sentAt : Nat
  address : String
  username : String
  avatar : String
  text : String
deriving DecidableEq, Repr

/-- The `room.chat` record: roster keyed by address plus ordered message log. -/
structure Chat where
  members : List (String × Member)
  messages : List Message
deriving DecidableEq, Repr

/-- The `room.ai` record. -/
structure AiState where
  enabled : Bool
  level : Option String
  botAddress : Option String
  thinking : Bool
deriving DecidableEq, Repr

/-- The transient `room.forfeit` record; the `setTimeout` handle is modelled
as an identifier. -/
structure Forfeit where
  color : Option Color
  deadlineAt : Option Nat
  timer : Option Nat
deriving DecidableEq, Repr

/-- A websocket connection as the server sees it: identity for `Set`
membership, the `playerAddress` and `roomId` fields the server writes onto
the socket object, and `readyState` (1 = OPEN). -/
structure Client where
  id : Nat
  playerAddress : Option String
  roomId : Option String
  readyState : Nat
deriving DecidableEq, Repr

/-- The JS `Set` of colors `room.rematchOffers`, as its characteristic pair. -/
structure RematchOffers where
  white : Bool
  black : Bool
deriving DecidableEq, Repr

/-- The empty offers set (`new Set()` / `.clear()`). -/
def RematchOffers.empty : RematchOffers := ⟨false, false⟩

/-- `set.add(color)`. -/
def RematchOffers.add (o : RematchOffers) : Color → RematchOffers
  | .white => { o with white := true }
  | .black => { o with black := true }

/-- `set.size`. -/
def RematchOffers.size (o : RematchOffers) : Nat :=
  (if o.white then 1 else 0) + (if o.black then 1 else 0)

/-- `Array.from(set)` (insertion order is irrelevant once rebuilt into a set). -/
def RematchOffers.toList (o : RematchOffers) : List Color :=
  (if o.white then [Color.white] else []) ++ (if o.black then [Color.black] else [])

/-- `new Set(list)`. -/
def RematchOffers.ofList (l : List Color) : RematchOffers :=
  ⟨l.contains Color.white, l.contains Color.black⟩

/-- Server configuration constants read from the environment:
`CLOCK_INITIAL_MS`, `CLOCK_INCREMENT_MS`, `DISCONNECT_FORFEIT_MS`. -/
structure Config where
  initialMs : Int
  incrementMs : Int
  forfeitMs : Nat
deriving DecidableEq, Repr

/-! String helpers mirroring the JavaScript string methods used by the
server, written over the character list so they evaluate by `decide`. -/

/-- JS `String.prototype.trim`. -/
def jsTrim (s : String) : String :=
  String.mk (((s.data.dropWhile Char.isWhitespace).reverse.dropWhile Char.isWhitespace).reverse)

/-- JS `String.prototype.slice(0, n)`. -/
def jsTake (n : Nat) (s : String) : String :=
  String.mk (s.data.take n)

/-- JS `String.prototype.slice(n)` (drop the first `n` code units). -/
def jsDrop (n : Nat) (s : String) : String :=
  String.mk (s.data.drop n)

/-- JS `String.prototype.toLowerCase`. -/
def jsToLower (s : String) : String :=
  String.mk (s.data.map Char.toLower)

/-- JS `String.prototype.startsWith`. -/
def jsStartsWith (s pre : String) : Bool :=
  jsTake pre.length s = pre

/-- JS `s.length`. -/
def jsLen (s : String) : Nat := s.data.length

/-- The generated identicon avatar URL used by `normalizeChatMember` and
the `send_chat` fallback member. -/
def dicebearUrl (seed : String) : String :=
  "https://api.dicebear.com/9.x/identicon/svg?seed=" ++ seed

/-- `normalizeChatMember(member, address)` of the source, on the object form
(the roster this server builds always stores `{username, avatar}` objects;
the legacy plain-string branch of the JS function is therefore not
representable in this data model). -/
def normalizeChatMember (member : Option Member) (address : String) : Option Member :=
  match member with
  | none => none
  | some m =>
    let username := jsTake 24 (jsTrim m.username)
    if username = "" then none
    else
      let avatar := jsTake 512 (jsTrim m.avatar)
      some { username := username,
             avatar := if avatar = "" then
                         dicebearUrl (if address = "" then username else address)
                       else avatar }

/-- The per-message normalization inside `normalizeChatState`; `fresh` stands
for the `randomUUID().slice(0, 8)` fallback id, `now` for `Date.now()`. -/
def normalizeChatMessage (fresh : String) (now : Nat) (m : Message) : Message :=
  { id := if m.id = "" then fresh else m.id
    sentAt := if m.sentAt = 0 then now else m.sentAt
    address := jsToLower m.address
    username := if jsTake 24 (jsTrim m.username) = "" then "Player" else jsTake 24 (jsTrim m.username)
    avatar := jsTake 512 (jsTrim m.avatar)
    text := jsTake 280 (jsTrim m.text) }

/-- `normalizeChatState(chat)` of the source.  `fresh i` models the uuid drawn
for the `i`-th message when its id is missing. -/
def normalizeChatState (chat : Option Chat) (fresh : Nat → String) (now : Nat) : Chat :=
  let base := chat.getD ⟨[], []⟩
  { members := base.members.filterMap
      (fun p => (normalizeChatMember (some p.2) p.1).map (fun m => (p.1, m)))
    messages :=
      ((base.messages.enum.map (fun p => normalizeChatMessage (fresh p.1) now p.2)).filter
        (fun m => m.text ≠ "")) }

/-- A move object as returned by the AI picker (`pickAiMove`): the fields of a
`chess.js` verbose move that the server reads back. -/
structure AiMove where
  fromSq : String
  toSq : String
  promotion : Option Promo
deriving DecidableEq, Repr

/-- The chess rules engine collaborator (`chess.js`), abstracted to exactly
the operations the server invokes.  `move` returns `none` where `chess.move`
throws on an illegal move.  `pick` stands for `pickAiMove(chess, level)`: its
internals (random choice, heuristic scoring, minimax) live entirely on the
collaborator side of the interface, so the oracle absorbs them; theorems
quantify over every engine and hence over every possible pick. -/
structure Engine (Pos : Type) where
  init : Pos
  turn : Pos → Color
  isGameOver : Pos → Bool
  move : Pos → String → String → Promo → Option Pos
  fen : Pos → String
  ofFen : String → Pos
  historyLen : Pos → Nat
  pick : Pos → Option String → Option AiMove

variable {Pos : Type}

/-- The live `room` object (aggregate root). -/
structure Room (Pos : Type) where
  id : String
  pos : Pos
  players : Players
  clients : List Client
  forcedResult : Option ForcedResult
  drawOfferBy : Option Color
  rematchOffers : RematchOffers
  clock : Clock
  chat : Chat
  ai : AiState
  createdAt : Nat
  forfeit : Forfeit
deriving DecidableEq

/-- `createClockState()`. -/
def createClockState (cfg : Config) : Clock :=
  { whiteMs := cfg.initialMs
    blackMs := cfg.initialMs
    incrementMs := cfg.incrementMs
    running := false
    lastTickAt := none }

/-- `createChatState()`. -/
def createChatState : Chat := ⟨[], []⟩

/-- `createAiState()`. -/
def createAiState : AiState := ⟨false, none, none, false⟩

/-- `isFinished(room)`. -/
def isFinished (E : Engine Pos) (room : Room Pos) : Bool :=
  room.forcedResult.isSome || E.isGameOver room.pos

/-- `currentTurnColor(room)`. -/
def currentTurnColor (E : Engine Pos) (room : Room Pos) : Color :=
  E.turn room.pos

/-- `isAiAddress(address)` (on a nullable address). -/
def isAiAddress : Option String → Bool
  | some a => jsStartsWith a "ai:"
  | none => false

/-- `getPlayerColor(room, address)`. -/
def getPlayerColor (room : Room Pos) (address : Option String) : Option Color :=
  match address with
  | none => none
  | some a =>
    if room.players.white = some a then some Color.white
    else if room.players.black = some a then some Color.black
    else none

/-- `getConnectedCount(room, color)`. -/
def getConnectedCount (room : Room Pos) (color : Color) : Nat :=
  match room.players.get color with
  | none => 0
  | some p => (room.clients.filter (fun c => c.readyState = 1 && c.playerAddress = some p)).length

/-- `isPlayerOnline(room, color)`. -/
def isPlayerOnline (room : Room Pos) (color : Color) : Bool :=
  isAiAddress (room.players.get color) || decide (0 < getConnectedCount room color)

/-! Assoc-list helpers giving JS object / Map semantics for string-keyed
records (`room.chat.members`, `activeRooms`, the in-memory store). -/

/-- Map lookup (`map.get(k)` / `obj[k]`). -/
def lookupA {α : Type} (l : List (String × α)) (k : String) : Option α :=
  (l.find? (fun p => p.1 = k)).map (fun p => p.2)

/-- Map update (`map.set(k, v)` / `obj[k] = v`): replaces in place, else appends. -/
def setA {α : Type} (l : List (String × α)) (k : String) (v : α) : List (String × α) :=
  if (l.find? (fun p => p.1 = k)).isSome then
    l.map (fun p => if p.1 = k then (k, v) else p)
  else l ++ [(k, v)]

/-- Map deletion (`map.delete(k)` / Redis `del`). -/
def eraseA {α : Type} (l : List (String × α)) (k : String) : List (String × α) :=
  l.filter (fun p => p.1 ≠ k)

/-- `pushChatMessage(room, {...})`: append and evict from the front past the
`MAX_CHAT_MESSAGES = 100` cap.  `msgId` models `randomUUID().slice(0, 8)`,
`now` models `Date.now()`. -/
def pushChatMessage (room : Room Pos) (address username avatar text : String)
    (msgId : String) (now : Nat) : Room Pos :=
  let msgs := room.chat.messages ++
    [{ id := msgId, sentAt := now, address := address, username := username,
       avatar := avatar, text := text }]
  let msgs := if 100 < msgs.length then msgs.drop (msgs.length - 100) else msgs
  { room with chat := { room.chat with messages := msgs } }

/-- The durable record produced by `toSnapshot`.  Fields that `fromSnapshot`
defends with `|| fallback` are `Option`-typed so those fallbacks are
representable. -/
structure Snapshot where
  id : String
  fen : String
  players : Players
  forcedResult : Option ForcedResult
  drawOfferBy : Option Color
  rematchOffers : Option (List Color)
  clock : Option Clock
  chat : Option Chat
  ai : Option AiState
  createdAt : Nat
  updatedAt : Nat
deriving DecidableEq

/-- `toSnapshot(room)`; `now` models the `Date.now()` written to `updatedAt`. -/
def toSnapshot (E : Engine Pos) (room : Room Pos) (now : Nat) : Snapshot :=
  { id := room.id
    fen := E.fen room.pos
    players := room.players
    forcedResult := room.forcedResult
    drawOfferBy := room.drawOfferBy
    rematchOffers := some room.rematchOffers.toList
    clock := some room.clock
    chat := some room.chat
    ai := some room.ai
    createdAt := room.createdAt
    updatedAt := now }

/-- `fromSnapshot(snapshot)`.  `fresh`/`now` feed `normalizeChatState` and the
`createdAt || Date.now()` fallback (`createdAt = 0` is the falsy case). -/
def fromSnapshot (E : Engine Pos) (cfg : Config) (snap : Snapshot)
    (fresh : Nat → String) (now : Nat) : Room Pos :=
  { id := snap.id
    pos := E.ofFen snap.fen
    players := snap.players
    clients := []
    forcedResult := snap.forcedResult
    drawOfferBy := snap.drawOfferBy
    rematchOffers := RematchOffers.ofList (snap.rematchOffers.getD [])
    clock := snap.clock.getD (createClockState cfg)
    chat := normalizeChatState snap.chat fresh now
    ai := snap.ai.getD createAiState
    createdAt := if snap.createdAt = 0 then now else snap.createdAt
    forfeit := ⟨none, none, none⟩ }

/-- `applyClockDecay(room, now)`.  The two `=== 0` checks run on the state
where `room.forcedResult` is still `null` (guaranteed by the `isFinished`
guard), and the second check overwrites the first when both hit zero. -/
def applyClockDecay (E : Engine Pos) (room : Room Pos) (now : Nat) : Room Pos :=
  if room.clock.running = false then room
  else if isFinished E room then room
  else
    match room.clock.lastTickAt with
    | none => { room with clock := { room.clock with lastTickAt := some now } }
    | some last =>
      let elapsed : Int := (now : Int) - (last : Int)
      if elapsed ≤ 0 then room
      else
        let clock₁ :=
          if E.turn room.pos = Color.white then
            { room.clock with whiteMs := max 0 (room.clock.whiteMs - elapsed),
                              lastTickAt := some now }
          else
            { room.clock with blackMs := max 0 (room.clock.blackMs - elapsed),
                              lastTickAt := some now }
        let fr₁ : Option ForcedResult :=
          if clock₁.whiteMs = 0 then some .black_wins_by_timeout else none
        let fr₂ : Option ForcedResult :=
          if clock₁.blackMs = 0 then some .white_wins_by_timeout else fr₁
        match fr₂ with
        | some fr =>
          { room with clock := { clock₁ with running := false },
                      forcedResult := some fr,
                      drawOfferBy := none,
                      rematchOffers := RematchOffers.empty }
        | none => { room with clock := clock₁ }

/-- `startClockIfReady(room)`. -/
def startClockIfReady (E : Engine Pos) (room : Room Pos) (now : Nat) : Room Pos :=
  if isFinished E room then
    { room with clock := { room.clock with running := false, lastTickAt := none } }
  else if room.players.white = none || room.players.black = none then
    { room with clock := { room.clock with running := false, lastTickAt := none } }
  else
    { room with clock := { room.clock with running := true, lastTickAt := some now } }

/-- `resetGameForRematch(room)`. -/
def resetGameForRematch (E : Engine Pos) (cfg : Config) (room : Room Pos) (now : Nat) :
    Room Pos :=
  let room := { room with pos := E.init,
                          forcedResult := none,
                          drawOfferBy := none,
                          rematchOffers := RematchOffers.empty }
  let room :=
    if room.ai.enabled then
      match room.ai.botAddress with
      | some b => { room with players := { room.players with black := some b } }
      | none => room
    else room
  startClockIfReady E { room with clock := createClockState cfg } now

/-- `clearForfeitTimer(room)` (the `clearTimeout` side effect is tracked
separately in the timer-system model below). -/
def clearForfeitTimer (room : Room Pos) : Room Pos :=
  { room with forfeit := ⟨none, none, none⟩ }

/-- `maybeStartForfeitTimer(gameStore, room, disconnectedColor)` at the room
level.  `tid` is the fresh `setTimeout` handle.  The returned flag records
whether a timer was armed, i.e. whether the trailing `broadcastRoom` (clock
decay + store save) ran; the early-return guards leave the room untouched
and skip it. -/
def maybeStartForfeitTimer (E : Engine Pos) (cfg : Config) (room : Room Pos)
    (disconnectedColor : Color) (now tid : Nat) : Room Pos × Bool :=
  if isFinished E room then (room, false)
  else
    let opponentColor := getOpponentColor disconnectedColor
    if room.players.get opponentColor = none then (room, false)
    else if isPlayerOnline room disconnectedColor then (room, false)
    else if !isPlayerOnline room opponentColor then (room, false)
    else
      let room := clearForfeitTimer room
      let room := { room with forfeit :=
        ⟨some disconnectedColor, some (now + cfg.forfeitMs), some tid⟩ }
      (applyClockDecay E room now, true)

/-- The body of the `setTimeout` callback armed by `maybeStartForfeitTimer`,
run at expiry time `now` with the captured `disconnectedColor`.  Every branch
ends in `broadcastRoom`, i.e. a clock decay. -/
def fireForfeit (E : Engine Pos) (room : Room Pos)
    (disconnectedColor : Color) (now : Nat) : Room Pos :=
  let opponentColor := getOpponentColor disconnectedColor
  if isFinished E room then applyClockDecay E (clearForfeitTimer room) now
  else if isPlayerOnline room disconnectedColor then
    applyClockDecay E (clearForfeitTimer room) now
  else if !isPlayerOnline room opponentColor then
    applyClockDecay E (clearForfeitTimer room) now
  else
    let room := { room with
      forcedResult := some (if opponentColor = Color.white then
        ForcedResult.white_wins_by_forfeit else ForcedResult.black_wins_by_forfeit),
      drawOfferBy := none,
      rematchOffers := RematchOffers.empty,
      clock := { room.clock with running := false } }
    applyClockDecay E (clearForfeitTimer room) now

/-- `maybeClearForfeitOnReconnect(gameStore, room, reconnectedColor)`. -/
def maybeClearForfeitOnReconnect (E : Engine Pos) (room : Room Pos)
    (reconnectedColor : Color) (now : Nat) : Room Pos :=
  if room.forfeit.color = some reconnectedColor && isPlayerOnline room reconnectedColor then
    applyClockDecay E (clearForfeitTimer room) now
  else room

/-- `maybeRunAiTurn(gameStore, room)`.  `now` is the time of the synchronous
stretch that flips `thinking` on and broadcasts; `now₂` is the time after the
artificial 400 ms delay.  When the picked move is rejected by the engine the
JS `chess.move` throws: the `finally` still resets `thinking`, nothing after
it runs, and the room is left in its decayed state. -/
def maybeRunAiTurn (E : Engine Pos) (room : Room Pos)
    (now now₂ : Nat) : Room Pos :=
  if !room.ai.enabled then room
  else if isFinished E room then room
  else if currentTurnColor E room ≠ Color.black then room
  else if room.ai.thinking then room
  else
    let room := { room with ai := { room.ai with thinking := true } }
    let room := applyClockDecay E room now
    let room := applyClockDecay E room now₂
    if isFinished E room then
      { room with clock := { room.clock with running := false, lastTickAt := none },
                  ai := { room.ai with thinking := false } }
    else
      match E.pick room.pos room.ai.level with
      | none =>
        { room with clock := { room.clock with running := false, lastTickAt := none },
                    ai := { room.ai with thinking := false } }
      | some mv =>
        match E.move room.pos mv.fromSq mv.toSq (mv.promotion.getD Promo.q) with
        | none => { room with ai := { room.ai with thinking := false } }
        | some p =>
          let room := { room with pos := p,
                                  drawOfferBy := none,
                                  rematchOffers := RematchOffers.empty }
          let room := clearForfeitTimer room
          let room := { room with clock :=
            { room.clock with blackMs := room.clock.blackMs + room.clock.incrementMs } }
          let room :=
            if isFinished E room then
              { room with clock := { room.clock with running := false, lastTickAt := none } }
            else
              { room with clock := { room.clock with running := true, lastTickAt := some now₂ } }
          let room := { room with ai := { room.ai with thinking := false } }
          applyClockDecay E room now₂

/-- The `make_move` payload; the realtime surface lets a client attach a
promotion choice, which the handler never reads. -/
structure MovePayload where
  fromSq : String
  toSq : String
  promotion : Option String
deriving DecidableEq, Repr

/-- Outcome of the `make_move` handler.  `accepted p` carries the position the
engine returned for the human move (applied with promotion `q`);
`timedOut` is the silent return after the pre-move decay finished the game. -/
inductive MoveOutcome (Pos : Type) where
  | accepted (p : Pos)
  | gameOver
  | wrongTurn
  | timedOut
  | illegal
deriving DecidableEq

/-- Whether a `MoveOutcome` is an acceptance. -/
def MoveOutcome.isAccepted : MoveOutcome Pos → Bool
  | .accepted _ => true
  | _ => false

/-- The `make_move` handler body after `resolveRoomAndPlayer` (which resolved
`color`, the actor's seat).  `now` is the command's timestamp, `now₂` the
post-delay timestamp of a triggered AI turn, `tid` a fresh timer handle for a
triggered forfeit timer.  `chess.move({from, to, promotion: 'q'})` hard-codes
the queen. -/
def makeMove (E : Engine Pos) (cfg : Config) (room : Room Pos) (color : Color)
    (payload : MovePayload) (now now₂ tid : Nat) : Room Pos × MoveOutcome Pos :=
  if isFinished E room then (room, .gameOver)
  else if currentTurnColor E room ≠ color then (room, .wrongTurn)
  else
    let room := applyClockDecay E room now
    if isFinished E room then (applyClockDecay E room now, .timedOut)
    else
      match E.move room.pos payload.fromSq payload.toSq Promo.q with
      | none => (room, .illegal)
      | some p =>
        let room := { room with pos := p,
                                drawOfferBy := none,
                                rematchOffers := RematchOffers.empty }
        let room := clearForfeitTimer room
        let clock :=
          if color = Color.white then
            { room.clock with whiteMs := room.clock.whiteMs + room.clock.incrementMs }
          else
            { room.clock with blackMs := room.clock.blackMs + room.clock.incrementMs }
        let room := { room with clock :=
          { clock with lastTickAt := some now, running := true } }
        if !isFinished E room then
          let next := currentTurnColor E room
          if room.ai.enabled && decide (next = Color.black) then
            (maybeRunAiTurn E room now now₂, .accepted p)
          else if !isPlayerOnline room next then
            ((maybeStartForfeitTimer E cfg room next now tid).1, .accepted p)
          else (applyClockDecay E room now, .accepted p)
        else
          let room := { room with clock := { room.clock with running := false } }
          (applyClockDecay E room now, .accepted p)

/-- The `resign` handler body after resolution. -/
def resign (E : Engine Pos) (room : Room Pos) (color : Color) (now : Nat) :
    Room Pos × Bool :=
  if isFinished E room then (room, false)
  else
    let winnerColor := getOpponentColor color
    let room := { room with
      forcedResult := some (if winnerColor = Color.white then
        ForcedResult.white_wins_by_resign else ForcedResult.black_wins_by_resign),
      drawOfferBy := none,
      rematchOffers := RematchOffers.empty,
      clock := { room.clock with running := false } }
    (applyClockDecay E (clearForfeitTimer room) now, true)

/-- The `offer_draw` handler body after resolution. -/
def offerDraw (E : Engine Pos) (room : Room Pos) (color : Color) (now : Nat) :
    Room Pos × Bool :=
  if isFinished E room then (room, false)
  else if room.players.white = none || room.players.black = none then (room, false)
  else if room.drawOfferBy = some color then (room, false)
  else (applyClockDecay E { room with drawOfferBy := some color } now, true)

/-- The `accept_draw` handler body after resolution. -/
def acceptDraw (E : Engine Pos) (room : Room Pos) (color : Color) (now : Nat) :
    Room Pos × Bool :=
  if isFinished E room then (room, false)
  else if room.drawOfferBy = none then (room, false)
  else if room.drawOfferBy = some color then (room, false)
  else
    let room := { room with
      forcedResult := some ForcedResult.draw_agreed,
      drawOfferBy := none,
      rematchOffers := RematchOffers.empty,
      clock := { room.clock with running := false } }
    (applyClockDecay E (clearForfeitTimer room) now, true)

/-- The `offer_rematch` handler body after resolution. -/
def offerRematch (E : Engine Pos) (cfg : Config) (room : Room Pos) (color : Color)
    (now : Nat) : Room Pos × Bool :=
  if !isFinished E room then (room, false)
  else
    let room := { room with rematchOffers := room.rematchOffers.add color }
    let room :=
      if room.rematchOffers.size = 2 then resetGameForRematch E cfg room now else room
    (applyClockDecay E room now, true)

/-- The `send_chat` payload fields read by the handler; an absent JS field is
the empty string (both are falsy for `||`). -/
structure ChatPayload where
  username : String
  avatar : String
  text : String
deriving DecidableEq, Repr

/-- The `send_chat` handler body after resolution (`address` is already
lowercased by `resolveRoomAndPlayer`).  Note the source creates a missing
roster entry before it validates the text. -/
def sendChat (E : Engine Pos) (room : Room Pos) (address : String)
    (payload : ChatPayload) (msgId : String) (now : Nat) : Room Pos × Bool :=
  let memberAndRoster :
      Member × List (String × Member) :=
    match normalizeChatMember (lookupA room.chat.members address) address with
    | some m => (m, room.chat.members)
    | none =>
      let fallbackName := "Player-" ++ jsTake 4 (jsDrop 2 address)
      let cand := normalizeChatMember
        (some ⟨if payload.username = "" then fallbackName else payload.username,
               payload.avatar⟩) address
      let m := cand.getD ⟨fallbackName, dicebearUrl address⟩
      (m, setA room.chat.members address m)
  let member := memberAndRoster.1
  let room := { room with chat := { room.chat with members := memberAndRoster.2 } }
  let text := jsTrim payload.text
  if text = "" || 280 < jsLen text then (room, false)
  else
    (applyClockDecay E
      (pushChatMessage room address member.username member.avatar text msgId now) now, true)

/-- The `enter_chat` handler body after resolution.  The length guard keeps
the trimmed username between 2 and 24 characters, so the normalization below
cannot return `null`; the `none` fallback is unreachable under that guard. -/
def enterChat (E : Engine Pos) (room : Room Pos) (address : String)
    (usernameRaw avatarRaw : String) (now : Nat) : Room Pos × Bool :=
  let username := jsTrim usernameRaw
  let avatar := jsTrim avatarRaw
  if jsLen username < 2 || 24 < jsLen username then (room, false)
  else
    match normalizeChatMember (some ⟨username, avatar⟩) address with
    | some m =>
      (applyClockDecay E
        { room with chat := { room.chat with members := setA room.chat.members address m } }
        now, true)
    | none => (room, false)

/-- The room literal built by the `create_room` handler. -/
def newRoom (E : Engine Pos) (cfg : Config) (id address : String) (now : Nat) : Room Pos :=
  { id := id
    pos := E.init
    players := ⟨some address, none⟩
    clients := []
    forcedResult := none
    drawOfferBy := none
    rematchOffers := RematchOffers.empty
    clock := createClockState cfg
    chat := createChatState
    ai := createAiState
    createdAt := now
    forfeit := ⟨none, none, none⟩ }

/-- The `join_room` handler's room mutation (after the payload and room were
resolved; attach bookkeeping is connection-side). -/
def joinRoomSeat (E : Engine Pos) (room : Room Pos) (address : String) (now : Nat) :
    Room Pos × Bool :=
  if room.ai.enabled && room.players.white ≠ some address then (room, false)
  else
    let room :=
      if room.players.black = none && room.players.white ≠ some address then
        startClockIfReady E { room with players := { room.players with black := some address } } now
      else room
    if room.players.white ≠ some address && room.players.black ≠ some address then
      (room, false)
    else (applyClockDecay E room now, true)

/-- The `set_ai_level` handler body after resolution. -/
def setAiLevel (E : Engine Pos) (room : Room Pos) (color : Color) (address : String)
    (levelRaw : String) (now : Nat) : Room Pos × Bool :=
  if color ≠ Color.white then (room, false)
  else if 0 < E.historyLen room.pos then (room, false)
  else
    let level := jsToLower levelRaw
    if !(level = "beginner" || level = "intermediate" || level = "hard" || level = "master") then
      (room, false)
    else if (match room.players.black with
             | some b => !isAiAddress (some b) && b ≠ address
             | none => false) then (room, false)
    else
      let botAddress := "ai:" ++ level
      let room := { room with
        ai := ⟨true, some level, some botAddress, false⟩,
        players := { room.players with black := some botAddress } }
      let room := clearForfeitTimer room
      let room := startClockIfReady E room now
      (applyClockDecay E room now, true)

/-- The coordinator's process state: the `activeRooms` registry and the
durable store (`InMemoryGameStore.rooms`; the Redis backend exposes the same
get/save/delete contract). -/
structure Sys (Pos : Type) where
  active : List (String × Room Pos)
  store : List (String × Snapshot)
deriving DecidableEq

/-- The non-forfeit tail of `removeClient`: the
`shouldDeleteEmptyUnstartedRoom` branch removes the record from registry and
store; otherwise the room is persisted and broadcast (clock decay + save) and
evicted from memory when its connection set is empty. -/
def removeClientRest (E : Engine Pos) (sys : Sys Pos) (rid : String)
    (room : Room Pos) (now : Nat) : Sys Pos :=
  if room.clients.isEmpty && room.players.black = none && E.historyLen room.pos = 0 then
    { active := eraseA sys.active rid, store := eraseA sys.store rid }
  else
    let room := applyClockDecay E room now
    let sys : Sys Pos :=
      { sys with active := setA sys.active rid room,
                 store := setA sys.store rid (toSnapshot E room now) }
    if room.clients.isEmpty then { sys with active := eraseA sys.active rid } else sys

/-- The `removeClient` tail from the `room.clients.delete(ws)` line on: the
disconnect-of-a-seated-player branch starts (or attempts to start) a forfeit
timer and returns; everything else falls through to `removeClientRest`. -/
def removeClientWith (E : Engine Pos) (cfg : Config) (sys : Sys Pos) (rid : String)
    (room₀ : Room Pos) (ws : Client) (now tid : Nat) : Sys Pos :=
  let room := { room₀ with clients := room₀.clients.filter (fun c => c.id ≠ ws.id) }
  match getPlayerColor room ws.playerAddress with
  | some c =>
    if !isFinished E room && !isPlayerOnline room c then
      let r := maybeStartForfeitTimer E cfg room c now tid
      { sys with active := setA sys.active rid r.1,
                 store := if r.2 then setA sys.store rid (toSnapshot E r.1 now) else sys.store }
    else removeClientRest E sys rid room now
  | none => removeClientRest E sys rid room now

/-- `removeClient(gameStore, ws)`: resolve the room from the registry or,
failing that, reconstruct it from the store (which registers it), then run
the shared tail. -/
def removeClient (E : Engine Pos) (cfg : Config) (sys : Sys Pos) (ws : Client)
    (fresh : Nat → String) (now tid : Nat) : Sys Pos :=
  match ws.roomId with
  | none => sys
  | some rid =>
    match lookupA sys.active rid with
    | some room₀ => removeClientWith E cfg sys rid room₀ ws now tid
    | none =>
      match lookupA sys.store rid with
      | none => sys
      | some snap =>
        let room₀ := fromSnapshot E cfg snap fresh now
        removeClientWith E cfg { sys with active := setA sys.active rid room₀ }
          rid room₀ ws now tid

/-- A room together with its process-local timer bookkeeping: `pending` lists
the `setTimeout` handles that are scheduled, unfired and uncancelled for this
room, with the `disconnectedColor` each callback captured; `nextId` generates
fresh handles. -/
structure TSys (Pos : Type) where
  room : Room Pos
  pending : List (Nat × Color)
  nextId : Nat
deriving DecidableEq

/-- `clearForfeitTimer` with its `clearTimeout` effect on the pending set. -/
def clearForfeitTimerT (s : TSys Pos) : TSys Pos :=
  { room := clearForfeitTimer s.room
    pending := match s.room.forfeit.timer with
      | some old => s.pending.filter (fun p => p.1 ≠ old)
      | none => s.pending
    nextId := s.nextId }

/-- `maybeStartForfeitTimer` with scheduling: when a timer is armed the prior
slot is first cancelled (inside the room-level function via
`clearForfeitTimer`) and the fresh handle is added to the pending set. -/
def maybeStartForfeitTimerT (E : Engine Pos) (cfg : Config) (s : TSys Pos)
    (disconnectedColor : Color) (now : Nat) : TSys Pos :=
  let r := maybeStartForfeitTimer E cfg s.room disconnectedColor now s.nextId
  if r.2 then
    { room := r.1
      pending := (s.nextId, disconnectedColor) ::
        (match s.room.forfeit.timer with
         | some old => s.pending.filter (fun p => p.1 ≠ old)
         | none => s.pending)
      nextId := s.nextId + 1 }
  else { s with room := r.1 }

/-- Expiry of the scheduled timer `tid`: it can only fire while still
pending, it leaves the pending set on firing, and its callback runs with the
captured color. -/
def fireForfeitT (E : Engine Pos) (s : TSys Pos) (tid : Nat) (now : Nat) : TSys Pos :=
  match s.pending.find? (fun p => p.1 = tid) with
  | none => s
  | some pc =>
    { room := fireForfeit E s.room pc.2 now
      pending := s.pending.filter (fun p => p.1 ≠ tid)
      nextId := s.nextId }

/-- `maybeClearForfeitOnReconnect` with its `clearTimeout` effect. -/
def maybeClearForfeitOnReconnectT (E : Engine Pos) (s : TSys Pos)
    (reconnectedColor : Color) (now : Nat) : TSys Pos :=
  if s.room.forfeit.color = some reconnectedColor &&
      isPlayerOnline s.room reconnectedColor then
    let s := clearForfeitTimerT s
    { s with room := applyClockDecay E s.room now }
  else s

/-- Well-formedness of the timer bookkeeping: every pending handle is the one
recorded in the room's forfeit slot (hence there is at most one). -/
def TimerInv (s : TSys Pos) : Prop :=
  s.pending.length ≤ 1 ∧ ∀ p ∈ s.pending, s.room.forfeit.timer = some p.1

instance (s : TSys Pos) : Decidable (TimerInv s) := by
  unfold TimerInv; infer_instance

/-- The game-affecting operations named by the forced-result permanence
property: move, clock decay, resign, draw accept, forfeit-timer expiry, AI
turn.  Each constructor relates a room to the room the operation leaves
behind. -/
inductive GameStep (E : Engine Pos) (cfg : Config) : Room Pos → Room Pos → Prop where
  | decay (room : Room Pos) (now : Nat) :
      GameStep E cfg room (applyClockDecay E room now)
  | move (room : Room Pos) (color : Color) (payload : MovePayload) (now now₂ tid : Nat) :
      GameStep E cfg room (makeMove E cfg room color payload now now₂ tid).1
  | resignStep (room : Room Pos) (color : Color) (now : Nat) :
      GameStep E cfg room (resign E room color now).1
  | acceptDrawStep (room : Room Pos) (color : Color) (now : Nat) :
      GameStep E cfg room (acceptDraw E room color now).1
  | fire (room : Room Pos) (c : Color) (now : Nat) :
      GameStep E cfg room (fireForfeit E room c now)
  | aiTurn (room : Room Pos) (now now₂ : Nat) :
      GameStep E cfg room (maybeRunAiTurn E room now now₂)

/-- Every room-mutating operation of the coordinator, for reachability. -/
inductive AnyStep (E : Engine Pos) (cfg : Config) : Room Pos → Room Pos → Prop where
  | game {room room' : Room Pos} : GameStep E cfg room room' → AnyStep E cfg room room'
  | offerDrawStep (room : Room Pos) (color : Color) (now : Nat) :
      AnyStep E cfg room (offerDraw E room color now).1
  | offerRematchStep (room : Room Pos) (color : Color) (now : Nat) :
      AnyStep E cfg room (offerRematch E cfg room color now).1
  | sendChatStep (room : Room Pos) (address : String) (payload : ChatPayload)
      (msgId : String) (now : Nat) :
      AnyStep E cfg room (sendChat E room address payload msgId now).1
  | enterChatStep (room : Room Pos) (address u a : String) (now : Nat) :
      AnyStep E cfg room (enterChat E room address u a now).1
  | joinStep (room : Room Pos) (address : String) (now : Nat) :
      AnyStep E cfg room (joinRoomSeat E room address now).1
  | setAiStep (room : Room Pos) (color : Color) (address level : String) (now : Nat) :
      AnyStep E cfg room (setAiLevel E room color address level now).1
  | startForfeit (room : Room Pos) (c : Color) (now tid : Nat) :
      AnyStep E cfg room (maybeStartForfeitTimer E cfg room c now tid).1
  | reconnect (room : Room Pos) (c : Color) (now : Nat) :
      AnyStep E cfg room (maybeClearForfeitOnReconnect E room c now)
  | attachOrDetach (room : Room Pos) (clients : List Client) :
      AnyStep E cfg room { room with clients := clients }

/-- A roster entry on which `normalizeChatMember` is the identity: username
already trimmed, within 24 characters and non-empty, avatar already trimmed,
within 512 characters and non-empty.  Entries written by the server's own
handlers have this shape. -/
def MemberNormal (m : Member) : Prop :=
  jsTake 24 (jsTrim m.username) = m.username ∧ m.username ≠ "" ∧
  jsTake 512 (jsTrim m.avatar) = m.avatar ∧ m.avatar ≠ ""

/-- A chat message on which the per-message normalization of
`normalizeChatState` is the identity. -/
def MessageNormal (m : Message) : Prop :=
  m.id ≠ "" ∧ m.sentAt ≠ 0 ∧ jsToLower m.address = m.address ∧
  jsTake 24 (jsTrim m.username) = m.username ∧ m.username ≠ "" ∧
  jsTake 512 (jsTrim m.avatar) = m.avatar ∧
  jsTake 280 (jsTrim m.text) = m.text ∧ m.text ≠ ""

/-- A chat state that `normalizeChatState` maps to itself component-wise. -/
def ChatNormal (c : Chat) : Prop :=
  (∀ p ∈ c.members, MemberNormal p.2) ∧ (∀ m ∈ c.messages, MessageNormal m)

instance (m : Member) : Decidable (MemberNormal m) := by
  unfold MemberNormal; infer_instance

instance (m : Message) : Decidable (MessageNormal m) := by
  unfold MessageNormal; infer_instance

instance (c : Chat) : Decidable (ChatNormal c) := by
  unfold ChatNormal; infer_instance

/-- The clock sanity predicate threaded through the reachability argument:
both budgets and the increment are non-negative. -/
def ClockInv (room : Room Pos) : Prop :=
  0 ≤ room.clock.whiteMs ∧ 0 ≤ room.clock.blackMs ∧ 0 ≤ room.clock.incrementMs

instance (room : Room Pos) : Decidable (ClockInv room) := by
  unfold ClockInv; infer_instance

/-! ### Concrete fixtures used by witnesses and counterexamples -/

/-- A deterministic stand-in rules engine over FEN strings themselves:
`fen`/`ofFen` are the identity, the side to move, game-over verdict, move
acceptance and AI pick are fixed by parameters.  Used only to instantiate the
abstract collaborator in closed witnesses and counterexamples. -/
def tEngine (t : Color) (over : Bool) (mv : Option String) (pk : Option AiMove) :
    Engine String :=
  { init := "startpos"
    turn := fun _ => t
    isGameOver := fun _ => over
    move := fun _ _ _ _ => mv
    fen := fun p => p
    ofFen := fun s => s
    historyLen := fun _ => 0
    pick := fun _ _ => pk }

/-- The default configuration (`CLOCK_INITIAL_MS = 300000`,
`CLOCK_INCREMENT_MS = 2000`, `DISCONNECT_FORFEIT_MS = 60000`). -/
def cfgD : Config := ⟨300000, 2000, 60000⟩

/-- A two-seat room with a running clock last ticked at time 0, used as the
base state of several concrete runs. -/
def roomRun (whiteMs blackMs : Int) : Room String :=
  { id := "r1"
    pos := "P1"
    players := ⟨some "0xa", some "0xb"⟩
    clients := []
    forcedResult := none
    drawOfferBy := none
    rematchOffers := RematchOffers.empty
    clock := ⟨whiteMs, blackMs, 2000, true, some 0⟩
    chat := createChatState
    ai := createAiState
    createdAt := 1
    forfeit := ⟨none, none, none⟩ }

/-- Default concrete engine instance: white to move, game not over, every
move rejected, no AI pick. -/
def tE : Engine String := tEngine Color.white false none none

/-- A finished variant of `roomRun` (draw agreed, clock stopped). -/
def roomFin : Room String :=
  { roomRun 100 100 with forcedResult := some ForcedResult.draw_agreed,
                         clock := ⟨100, 100, 2000, false, none⟩ }

/-- The creator's websocket connection in the abandoned-room scenario. -/
def wsA : Client := ⟨1, some "0xa", some "r1", 3⟩

/-- A just-created room (white seat only) holding the creator's connection. -/
def roomC2 : Room String := { newRoom tE cfgD "r1" "0xa" 1 with clients := [wsA] }

/-- Process state right after `create_room`: the room is registered and its
snapshot persisted. -/
def sysC2 : Sys String := ⟨[("r1", roomC2)], [("r1", toSnapshot tE roomC2 1)]⟩

/-- A room whose chat roster and log are normal (round-trip stable). -/
def roomNorm : Room String :=
  { roomRun 100 100 with chat :=
      ⟨[("0xa", ⟨"alice", "av"⟩)], [⟨"m1", 5, "0xa", "alice", "av", "hi"⟩]⟩ }

/-- A timer system with one pending forfeit timer for black. -/
def tsysP : TSys String :=
  ⟨{ roomRun 100 100 with forfeit := ⟨some Color.black, some 60, some 3⟩ }, [(3, Color.black)], 4⟩

/-- A finished room in which black has already offered a rematch. -/
def roomFinB : Room String := { roomFin with rematchOffers := ⟨false, true⟩ }

/-- The room produced by an accepted `send_chat` whose implicit roster entry
is trim-unstable: the 25-character username has a space at index 23, so the
stored name — `username.trim().slice(0, 24)` — ends in a space. -/
def roomBadChat : Room String :=
  (sendChat tE (roomRun 100 100) "0xa"
    ⟨"aaaaaaaaaaaaaaaaaaaaaaa b", "", "hi"⟩ "m1" 5).1

/-- A timer system whose flagged color (black) has reconnected: black's
address holds an open connection while its forfeit timer is still pending. -/
def tsysR : TSys String :=
  ⟨{ roomRun 100 100 with
      clients := [⟨2, some "0xb", some "r1", 1⟩],
      forfeit := ⟨some Color.black, some 60, some 3⟩ }, [(3, Color.black)], 4⟩

/-! ## Helper lemmas -/

theorem isFinished_of_forced (E : Engine Pos) (room : Room Pos) (fr : ForcedResult)
    (h : room.forcedResult = some fr) : isFinished E room = true := by
  simp [isFinished, h]

theorem applyClockDecay_of_finished (E : Engine Pos) (room : Room Pos) (now : Nat)
    (h : isFinished E room = true) : applyClockDecay E room now = room := by
  unfold applyClockDecay
  split
  · rfl
  · simp [h]

theorem applyClockDecay_of_not_running (E : Engine Pos) (room : Room Pos) (now : Nat)
    (h : room.clock.running = false) : applyClockDecay E room now = room := by
  unfold applyClockDecay
  simp [h]

theorem applyClockDecay_pos (E : Engine Pos) (room : Room Pos) (now : Nat) :
    (applyClockDecay E room now).pos = room.pos := by
  unfold applyClockDecay
  split
  · rfl
  split
  · rfl
  split
  · rfl
  dsimp only
  split
  · rfl
  split <;> rfl

theorem applyClockDecay_players (E : Engine Pos) (room : Room Pos) (now : Nat) :
    (applyClockDecay E room now).players = room.players := by
  unfold applyClockDecay
  split
  · rfl
  split
  · rfl
  split
  · rfl
  dsimp only
  split
  · rfl
  split <;> rfl

theorem applyClockDecay_chat (E : Engine Pos) (room : Room Pos) (now : Nat) :
    (applyClockDecay E room now).chat = room.chat := by
  unfold applyClockDecay
  split
  · rfl
  split
  · rfl
  split
  · rfl
  dsimp only
  split
  · rfl
  split <;> rfl

theorem applyClockDecay_forfeit (E : Engine Pos) (room : Room Pos) (now : Nat) :
    (applyClockDecay E room now).forfeit = room.forfeit := by
  unfold applyClockDecay
  split
  · rfl
  split
  · rfl
  split
  · rfl
  dsimp only
  split
  · rfl
  split <;> rfl

theorem applyClockDecay_incr (E : Engine Pos) (room : Room Pos) (now : Nat) :
    (applyClockDecay E room now).clock.incrementMs = room.clock.incrementMs := by
  unfold applyClockDecay
  split
  · rfl
  split
  · rfl
  split
  · rfl
  dsimp only
  split
  · rfl
  split <;> (split <;> rfl)

theorem applyClockDecay_forcedResult (E : Engine Pos) (room : Room Pos) (now : Nat) :
    (applyClockDecay E room now).forcedResult = room.forcedResult ∨
    (applyClockDecay E room now).forcedResult = some ForcedResult.white_wins_by_timeout ∨
    (applyClockDecay E room now).forcedResult = some ForcedResult.black_wins_by_timeout := by
  unfold applyClockDecay
  split
  · exact Or.inl rfl
  split
  · exact Or.inl rfl
  split
  · exact Or.inl rfl
  dsimp only
  split
  · exact Or.inl rfl
  rename_i last hlast hel
  by_cases hw : E.turn room.pos = Color.white
  · by_cases hb : room.clock.blackMs = 0
    · simp [hw, hb]
    · by_cases hw0 : (0 : Int) ⊔ (room.clock.whiteMs - ((now : Int) - (last : Int))) = 0
      · simp [hw, hb, hw0]
      · simp [hw, hb, hw0]
  · by_cases hb : (0 : Int) ⊔ (room.clock.blackMs - ((now : Int) - (last : Int))) = 0
    · simp [hw, hb]
    · by_cases hw0 : room.clock.whiteMs = 0
      · simp [hw, hb, hw0]
      · simp [hw, hb, hw0]

theorem applyClockDecay_at_lastTick (E : Engine Pos) (room : Room Pos) (now : Nat)
    (h : room.clock.lastTickAt = some now) : applyClockDecay E room now = room := by
  unfold applyClockDecay
  split
  · rfl
  split
  · rfl
  simp [h]

theorem applyClockDecay_lastTick_or_eq (E : Engine Pos) (room : Room Pos) (now : Nat) :
    (applyClockDecay E room now).clock.lastTickAt = some now ∨
    applyClockDecay E room now = room := by
  unfold applyClockDecay
  split
  · exact Or.inr rfl
  split
  · exact Or.inr rfl
  split
  · exact Or.inl rfl
  dsimp only
  split
  · exact Or.inr rfl
  split
  all_goals
    left
    dsimp only
    split <;> rfl

theorem applyClockDecay_idem (E : Engine Pos) (room : Room Pos) (now : Nat) :
    applyClockDecay E (applyClockDecay E room now) now = applyClockDecay E room now := by
  rcases applyClockDecay_lastTick_or_eq E room now with h | h
  · exact applyClockDecay_at_lastTick E _ now h
  · rw [h]
    exact h

theorem applyClockDecay_clockInv (E : Engine Pos) (room : Room Pos) (now : Nat)
    (h : ClockInv room) : ClockInv (applyClockDecay E room now) := by
  obtain ⟨h1, h2, h3⟩ := h
  unfold ClockInv at *
  unfold applyClockDecay
  split
  · exact ⟨h1, h2, h3⟩
  split
  · exact ⟨h1, h2, h3⟩
  split
  · exact ⟨h1, h2, h3⟩
  dsimp only
  split
  · exact ⟨h1, h2, h3⟩
  split <;>
  · refine ⟨?_, ?_, ?_⟩ <;>
    · dsimp only
      split <;>
        first
        | exact h1
        | exact h2
        | exact h3
        | exact le_max_left _ _

theorem startClockIfReady_clockInv (E : Engine Pos) (room : Room Pos) (now : Nat)
    (h : ClockInv room) : ClockInv (startClockIfReady E room now) := by
  unfold startClockIfReady
  split
  · exact h
  split
  · exact h
  · exact h

theorem maybeStartForfeitTimer_clockInv (E : Engine Pos) (cfg : Config) (room : Room Pos)
    (c : Color) (now tid : Nat) (h : ClockInv room) :
    ClockInv (maybeStartForfeitTimer E cfg room c now tid).1 := by
  unfold maybeStartForfeitTimer
  split
  · exact h
  dsimp only
  split
  · exact h
  split
  · exact h
  split
  · exact h
  · exact applyClockDecay_clockInv E _ now h

theorem fireForfeit_clockInv (E : Engine Pos) (room : Room Pos) (c : Color) (now : Nat)
    (h : ClockInv room) : ClockInv (fireForfeit E room c now) := by
  unfold fireForfeit
  dsimp only
  split
  · exact applyClockDecay_clockInv E _ now h
  split
  · exact applyClockDecay_clockInv E _ now h
  split
  · exact applyClockDecay_clockInv E _ now h
  · exact applyClockDecay_clockInv E _ now h

theorem maybeClearForfeitOnReconnect_clockInv (E : Engine Pos) (room : Room Pos)
    (c : Color) (now : Nat) (h : ClockInv room) :
    ClockInv (maybeClearForfeitOnReconnect E room c now) := by
  unfold maybeClearForfeitOnReconnect
  split
  · exact applyClockDecay_clockInv E _ now h
  · exact h

theorem maybeRunAiTurn_clockInv (E : Engine Pos) (room : Room Pos) (now now₂ : Nat)
    (h : ClockInv room) : ClockInv (maybeRunAiTurn E room now now₂) := by
  unfold maybeRunAiTurn
  split
  · exact h
  split
  · exact h
  split
  · exact h
  split
  · exact h
  have h2 : ClockInv (applyClockDecay E
      (applyClockDecay E { room with ai := { room.ai with thinking := true } } now) now₂) :=
    applyClockDecay_clockInv E _ now₂ (applyClockDecay_clockInv E _ now h)
  dsimp only
  split
  · exact h2
  split
  · exact h2
  split
  · exact h2
  · refine applyClockDecay_clockInv E _ now₂ ?_
    dsimp only
    split
    · exact ⟨h2.1, add_nonneg h2.2.1 h2.2.2, h2.2.2⟩
    · exact ⟨h2.1, add_nonneg h2.2.1 h2.2.2, h2.2.2⟩

theorem makeMove_clockInv (E : Engine Pos) (cfg : Config) (room : Room Pos) (color : Color)
    (payload : MovePayload) (now now₂ tid : Nat) (h : ClockInv room) :
    ClockInv (makeMove E cfg room color payload now now₂ tid).1 := by
  unfold makeMove
  split
  · exact h
  split
  · exact h
  have hd := applyClockDecay_clockInv E room now h
  dsimp only
  split
  · exact applyClockDecay_clockInv E _ now hd
  split
  · exact hd
  rename_i p hp
  split
  · split
    · split
      · exact maybeRunAiTurn_clockInv E _ now now₂ ⟨add_nonneg hd.1 hd.2.2, hd.2.1, hd.2.2⟩
      · split
        · exact maybeStartForfeitTimer_clockInv E cfg _ _ now tid
            ⟨add_nonneg hd.1 hd.2.2, hd.2.1, hd.2.2⟩
        · exact applyClockDecay_clockInv E _ now ⟨add_nonneg hd.1 hd.2.2, hd.2.1, hd.2.2⟩
    · exact applyClockDecay_clockInv E _ now ⟨add_nonneg hd.1 hd.2.2, hd.2.1, hd.2.2⟩
  · split
    · split
      · exact maybeRunAiTurn_clockInv E _ now now₂ ⟨hd.1, add_nonneg hd.2.1 hd.2.2, hd.2.2⟩
      · split
        · exact maybeStartForfeitTimer_clockInv E cfg _ _ now tid
            ⟨hd.1, add_nonneg hd.2.1 hd.2.2, hd.2.2⟩
        · exact applyClockDecay_clockInv E _ now ⟨hd.1, add_nonneg hd.2.1 hd.2.2, hd.2.2⟩
    · exact applyClockDecay_clockInv E _ now ⟨hd.1, add_nonneg hd.2.1 hd.2.2, hd.2.2⟩

theorem resign_clockInv (E : Engine Pos) (room : Room Pos) (color : Color) (now : Nat)
    (h : ClockInv room) : ClockInv (resign E room color now).1 := by
  unfold resign
  split
  · exact h
  · exact applyClockDecay_clockInv E _ now h

theorem acceptDraw_clockInv (E : Engine Pos) (room : Room Pos) (color : Color) (now : Nat)
    (h : ClockInv room) : ClockInv (acceptDraw E room color now).1 := by
  unfold acceptDraw
  split
  · exact h
  split
  · exact h
  split
  · exact h
  · exact applyClockDecay_clockInv E _ now h

theorem offerDraw_clockInv (E : Engine Pos) (room : Room Pos) (color : Color) (now : Nat)
    (h : ClockInv room) : ClockInv (offerDraw E room color now).1 := by
  unfold offerDraw
  split
  · exact h
  split
  · exact h
  split
  · exact h
  · exact applyClockDecay_clockInv E _ now h

theorem resetGameForRematch_clockInv (E : Engine Pos) (cfg : Config) (room : Room Pos)
    (now : Nat) (h0 : 0 ≤ cfg.initialMs) (h1 : 0 ≤ cfg.incrementMs) :
    ClockInv (resetGameForRematch E cfg room now) := by
  unfold resetGameForRematch
  dsimp only
  exact startClockIfReady_clockInv E _ now ⟨h0, h0, h1⟩

theorem offerRematch_clockInv (E : Engine Pos) (cfg : Config) (room : Room Pos)
    (color : Color) (now : Nat) (h0 : 0 ≤ cfg.initialMs) (h1 : 0 ≤ cfg.incrementMs)
    (h : ClockInv room) : ClockInv (offerRematch E cfg room color now).1 := by
  unfold offerRematch
  split
  · exact h
  dsimp only
  split
  · exact applyClockDecay_clockInv E _ now (resetGameForRematch_clockInv E cfg _ now h0 h1)
  · exact applyClockDecay_clockInv E _ now h

theorem sendChat_clockInv (E : Engine Pos) (room : Room Pos) (address : String)
    (payload : ChatPayload) (msgId : String) (now : Nat) (h : ClockInv room) :
    ClockInv (sendChat E room address payload msgId now).1 := by
  unfold sendChat
  dsimp only
  split
  · exact h
  · refine applyClockDecay_clockInv E _ now ?_
    unfold pushChatMessage
    exact h

theorem enterChat_clockInv (E : Engine Pos) (room : Room Pos) (address : String)
    (u a : String) (now : Nat) (h : ClockInv room) :
    ClockInv (enterChat E room address u a now).1 := by
  unfold enterChat
  dsimp only
  split
  · exact h
  split
  · exact applyClockDecay_clockInv E _ now h
  · exact h

theorem joinRoomSeat_clockInv (E : Engine Pos) (room : Room Pos) (address : String)
    (now : Nat) (h : ClockInv room) : ClockInv (joinRoomSeat E room address now).1 := by
  unfold joinRoomSeat
  split
  · exact h
  dsimp only
  split
  · split
    · exact startClockIfReady_clockInv E _ now h
    · exact applyClockDecay_clockInv E _ now (startClockIfReady_clockInv E _ now h)
  · split
    · exact h
    · exact applyClockDecay_clockInv E _ now h

theorem setAiLevel_clockInv (E : Engine Pos) (room : Room Pos) (color : Color)
    (address level : String) (now : Nat) (h : ClockInv room) :
    ClockInv (setAiLevel E room color address level now).1 := by
  unfold setAiLevel
  split
  · exact h
  split
  · exact h
  dsimp only
  split
  · exact h
  split
  · exact h
  · exact applyClockDecay_clockInv E _ now (startClockIfReady_clockInv E _ now h)

theorem gameStep_clockInv (E : Engine Pos) (cfg : Config) {r r' : Room Pos}
    (hs : GameStep E cfg r r') (h : ClockInv r) : ClockInv r' := by
  cases hs with
  | decay now => exact applyClockDecay_clockInv E r now h
  | move color payload now now₂ tid =>
    exact makeMove_clockInv E cfg r color payload now now₂ tid h
  | resignStep color now => exact resign_clockInv E r color now h
  | acceptDrawStep color now => exact acceptDraw_clockInv E r color now h
  | fire c now => exact fireForfeit_clockInv E r c now h
  | aiTurn now now₂ => exact maybeRunAiTurn_clockInv E r now now₂ h

theorem anyStep_clockInv (E : Engine Pos) (cfg : Config) (h0 : 0 ≤ cfg.initialMs)
    (h1 : 0 ≤ cfg.incrementMs) {r r' : Room Pos} (hs : AnyStep E cfg r r')
    (h : ClockInv r) : ClockInv r' := by
  cases hs with
  | game hg => exact gameStep_clockInv E cfg hg h
  | offerDrawStep color now => exact offerDraw_clockInv E r color now h
  | offerRematchStep color now =>
    exact offerRematch_clockInv E cfg r color now h0 h1 h
  | sendChatStep address payload msgId now =>
    exact sendChat_clockInv E r address payload msgId now h
  | enterChatStep address u a now => exact enterChat_clockInv E r address u a now h
  | joinStep address now => exact joinRoomSeat_clockInv E r address now h
  | setAiStep color address level now =>
    exact setAiLevel_clockInv E r color address level now h
  | startForfeit c now tid =>
    exact maybeStartForfeitTimer_clockInv E cfg r c now tid h
  | reconnect c now => exact maybeClearForfeitOnReconnect_clockInv E r c now h
  | attachOrDetach clients => exact h

theorem startClockIfReady_forced (E : Engine Pos) (room : Room Pos) (now : Nat) :
    (startClockIfReady E room now).forcedResult = room.forcedResult := by
  unfold startClockIfReady
  split
  · rfl
  split <;> rfl

theorem applyClockDecay_startClock (E : Engine Pos) (room : Room Pos) (now : Nat) :
    applyClockDecay E (startClockIfReady E room now) now = startClockIfReady E room now := by
  unfold startClockIfReady
  split
  · exact applyClockDecay_of_not_running E _ now rfl
  split
  · exact applyClockDecay_of_not_running E _ now rfl
  · exact applyClockDecay_at_lastTick E _ now rfl

/-- C9: starting from the configured non-negative initial budget, every
reachable room keeps `clock.whiteMs ≥ 0` and `clock.blackMs ≥ 0`, and clock
decay run twice with the same timestamp equals running it once. -/
theorem c9_clock_nonneg_and_idem (E : Engine Pos) (cfg : Config)
    (h0 : 0 ≤ cfg.initialMs) (h1 : 0 ≤ cfg.incrementMs) (id address : String)
    (now0 : Nat) (room : Room Pos)
    (hr : Relation.ReflTransGen (AnyStep E cfg) (newRoom E cfg id address now0) room) :
    (0 ≤ room.clock.whiteMs ∧ 0 ≤ room.clock.blackMs) ∧
    ∀ (r : Room Pos) (now : Nat),
      applyClockDecay E (applyClockDecay E r now) now = applyClockDecay E r now := by
  constructor
  · have hinv : ClockInv room := by
      induction hr with
      | refl => exact ⟨h0, h0, h1⟩
      | tail hsteps hstep ih => exact anyStep_clockInv E cfg h0 h1 hstep ih
    exact ⟨hinv.1, hinv.2.1⟩
  · intro r now
    exact applyClockDecay_idem E r now

theorem c9_witness :
    ((0 ≤ (newRoom tE cfgD "r1" "0xa" 5).clock.whiteMs ∧
      0 ≤ (newRoom tE cfgD "r1" "0xa" 5).clock.blackMs)) ∧
    applyClockDecay tE (applyClockDecay tE (roomRun 100 100) 7) 7 =
      applyClockDecay tE (roomRun 100 100) 7 :=
  ⟨(c9_clock_nonneg_and_idem tE cfgD (by decide) (by decide) "r1" "0xa" 5 _
      Relation.ReflTransGen.refl).1,
   (c9_clock_nonneg_and_idem tE cfgD (by decide) (by decide) "r1" "0xa" 5 _
      Relation.ReflTransGen.refl).2 (roomRun 100 100) 7⟩

/-- C4: once `forcedResult` is non-null, none of the game operations (move,
clock decay, resign, draw accept, forfeit-timer expiry, AI turn) changes it;
the `offer_rematch` handler changes it (to `null`) exactly when the recorded
offer makes both colors present, via the rematch reset. -/
theorem c4_forced_result_permanent (E : Engine Pos) (cfg : Config) :
    (∀ (r r' : Room Pos) (fr : ForcedResult), GameStep E cfg r r' →
       r.forcedResult = some fr → r'.forcedResult = some fr) ∧
    (∀ (room : Room Pos) (color : Color) (now : Nat) (fr : ForcedResult),
       room.forcedResult = some fr →
       ((room.rematchOffers.add color).size = 2 →
          (offerRematch E cfg room color now).1.forcedResult = none) ∧
       ((room.rematchOffers.add color).size ≠ 2 →
          (offerRematch E cfg room color now).1.forcedResult = some fr)) := by
  constructor
  · intro r r' fr hs h
    have hf := isFinished_of_forced E r fr h
    cases hs with
    | decay now =>
      rw [applyClockDecay_of_finished E r now hf]
      exact h
    | move color payload now now₂ tid =>
      simp only [makeMove, hf, if_true]
      exact h
    | resignStep color now =>
      simp only [resign, hf, if_true]
      exact h
    | acceptDrawStep color now =>
      simp only [acceptDraw, hf, if_true]
      exact h
    | fire c now =>
      have hf2 : isFinished E (clearForfeitTimer r) = true := hf
      simp only [fireForfeit, hf, if_true]
      rw [applyClockDecay_of_finished E _ now hf2]
      exact h
    | aiTurn now now₂ =>
      unfold maybeRunAiTurn
      split
      · exact h
      exact h
  · intro room color now fr h
    have hf := isFinished_of_forced E room fr h
    have hng : ¬(!isFinished E room) = true := by simp [hf]
    constructor
    · intro hsz
      unfold offerRematch
      rw [if_neg hng]
      dsimp only
      rw [if_pos hsz]
      unfold resetGameForRematch
      rw [applyClockDecay_startClock, startClockIfReady_forced]
      dsimp only
      split
      · split <;> rfl
      · rfl
    · intro hsz
      unfold offerRematch
      rw [if_neg hng]
      dsimp only
      rw [if_neg hsz]
      have hfin1 : isFinished E { room with rematchOffers := room.rematchOffers.add color } = true := hf
      rw [applyClockDecay_of_finished E _ now hfin1]
      exact h

theorem c4_witness :
    (applyClockDecay tE roomFin 9).forcedResult = some ForcedResult.draw_agreed ∧
    (offerRematch tE cfgD roomFin Color.white 9).1.forcedResult =
      some ForcedResult.draw_agreed :=
  ⟨(c4_forced_result_permanent tE cfgD).1 roomFin _ ForcedResult.draw_agreed
      (GameStep.decay roomFin 9) rfl,
   ((c4_forced_result_permanent tE cfgD).2 roomFin Color.white 9
      ForcedResult.draw_agreed rfl).2 (by decide)⟩

theorem makeMove_eq_gameOver (E : Engine Pos) (cfg : Config) (room : Room Pos)
    (color : Color) (payload : MovePayload) (now now₂ tid : Nat)
    (h1 : isFinished E room = true) :
    makeMove E cfg room color payload now now₂ tid = (room, MoveOutcome.gameOver) := by
  unfold makeMove
  rw [if_pos h1]

theorem makeMove_eq_wrongTurn (E : Engine Pos) (cfg : Config) (room : Room Pos)
    (color : Color) (payload : MovePayload) (now now₂ tid : Nat)
    (h1 : ¬isFinished E room = true) (h2 : ¬currentTurnColor E room = color) :
    makeMove E cfg room color payload now now₂ tid = (room, MoveOutcome.wrongTurn) := by
  unfold makeMove
  rw [if_neg h1, if_pos h2]

theorem makeMove_eq_timedOut (E : Engine Pos) (cfg : Config) (room : Room Pos)
    (color : Color) (payload : MovePayload) (now now₂ tid : Nat)
    (h1 : ¬isFinished E room = true) (h2 : currentTurnColor E room = color)
    (h3 : isFinished E (applyClockDecay E room now) = true) :
    makeMove E cfg room color payload now now₂ tid =
      (applyClockDecay E room now, MoveOutcome.timedOut) := by
  unfold makeMove
  rw [if_neg h1, if_neg (fun hne => hne h2)]
  dsimp only
  rw [if_pos h3, applyClockDecay_idem]

theorem makeMove_eq_illegal (E : Engine Pos) (cfg : Config) (room : Room Pos)
    (color : Color) (payload : MovePayload) (now now₂ tid : Nat)
    (h1 : ¬isFinished E room = true) (h2 : currentTurnColor E room = color)
    (h3 : ¬isFinished E (applyClockDecay E room now) = true)
    (hm : E.move room.pos payload.fromSq payload.toSq Promo.q = none) :
    makeMove E cfg room color payload now now₂ tid =
      (applyClockDecay E room now, MoveOutcome.illegal) := by
  unfold makeMove
  rw [if_neg h1, if_neg (fun hne => hne h2)]
  dsimp only
  rw [if_neg h3, applyClockDecay_pos, hm]

theorem makeMove_snd_accepted (E : Engine Pos) (cfg : Config) (room : Room Pos)
    (color : Color) (payload : MovePayload) (now now₂ tid : Nat) (p : Pos)
    (h1 : ¬isFinished E room = true) (h2 : currentTurnColor E room = color)
    (h3 : ¬isFinished E (applyClockDecay E room now) = true)
    (hm : E.move room.pos payload.fromSq payload.toSq Promo.q = some p) :
    (makeMove E cfg room color payload now now₂ tid).2 = MoveOutcome.accepted p := by
  unfold makeMove
  rw [if_neg h1, if_neg (fun hne => hne h2)]
  dsimp only
  rw [if_neg h3, applyClockDecay_pos, hm]
  dsimp only
  repeat' split
  all_goals rfl

/-- C10: the `make_move` handler ignores any client-supplied promotion choice
(the handler output is independent of the payload's promotion field), and an
accepted move's position is the engine's answer for the move applied with
promotion hard-coded to queen — so the public command surface never
underpromotes. -/
theorem c10_promotion_forced_queen (E : Engine Pos) (cfg : Config) (room : Room Pos)
    (color : Color) (fromSq toSq : String) (p₁ p₂ : Option String) (now now₂ tid : Nat) :
    makeMove E cfg room color ⟨fromSq, toSq, p₁⟩ now now₂ tid =
      makeMove E cfg room color ⟨fromSq, toSq, p₂⟩ now now₂ tid ∧
    ∀ q : Pos, (makeMove E cfg room color ⟨fromSq, toSq, p₁⟩ now now₂ tid).2 =
        MoveOutcome.accepted q →
      E.move room.pos fromSq toSq Promo.q = some q := by
  constructor
  · rfl
  · intro q h
    by_cases h1 : isFinished E room = true
    · rw [makeMove_eq_gameOver E cfg room color _ now now₂ tid h1] at h
      simp at h
    · by_cases h2 : currentTurnColor E room = color
      · by_cases h3 : isFinished E (applyClockDecay E room now) = true
        · rw [makeMove_eq_timedOut E cfg room color _ now now₂ tid h1 h2 h3] at h
          simp at h
        · cases hm : E.move room.pos fromSq toSq Promo.q with
          | none =>
            rw [makeMove_eq_illegal E cfg room color _ now now₂ tid h1 h2 h3 hm] at h
            simp at h
          | some p =>
            rw [makeMove_snd_accepted E cfg room color _ now now₂ tid p h1 h2 h3 hm] at h
            injection h with hpq
            rw [hpq]
      · rw [makeMove_eq_wrongTurn E cfg room color _ now now₂ tid h1 h2] at h
        simp at h

theorem c10_witness :
    (makeMove (tEngine Color.white false (some "P2") none) cfgD (roomRun 100 100)
      Color.white ⟨"e7", "e8", some "n"⟩ 0 0 0).2 = MoveOutcome.accepted "P2" ∧
    (tEngine Color.white false (some "P2") none).move (roomRun 100 100).pos "e7" "e8"
      Promo.q = some "P2" :=
  ⟨by decide,
   (c10_promotion_forced_queen (tEngine Color.white false (some "P2") none) cfgD
      (roomRun 100 100) Color.white "e7" "e8" (some "n") none 0 0 0).2 "P2" (by decide)⟩

/-- C1 counterexample: a `make_move` command rejected as illegal still
mutates the room's clock — the pre-move `applyClockDecay` (10 ms elapsed)
already subtracted from `whiteMs` before the engine vetoed the move, so the
claim that rejection leaves the clock fields unchanged is false. -/
theorem c1_cex :
    (makeMove tE cfgD (roomRun 100 100) Color.white ⟨"e2", "e5", none⟩ 10 10 0).2 =
      MoveOutcome.illegal ∧
    (makeMove tE cfgD (roomRun 100 100) Color.white
      ⟨"e2", "e5", none⟩ 10 10 0).1.clock.whiteMs = 90 ∧
    (roomRun 100 100).clock.whiteMs = 100 := by decide

/-- C1 (amended): a move is accepted iff the acting seat is the side to move,
the game is unfinished both before and after the command's clock decay, and
the engine accepts the from/to pair; a rejected command leaves the position
unchanged and the room either entirely unchanged (finished-game or wrong-turn
rejections) or changed exactly by the clock decay any command performs (which
on a timeout also sets the forced result, stops the clock and clears the
offers — the decay-timeout and illegal-move rejections). -/
theorem c1_move_accept_reject (E : Engine Pos) (cfg : Config) (room : Room Pos)
    (color : Color) (payload : MovePayload) (now now₂ tid : Nat) :
    ((makeMove E cfg room color payload now now₂ tid).2.isAccepted = true ↔
      (isFinished E room = false ∧ currentTurnColor E room = color ∧
       isFinished E (applyClockDecay E room now) = false ∧
       (E.move room.pos payload.fromSq payload.toSq Promo.q).isSome = true)) ∧
    ((makeMove E cfg room color payload now now₂ tid).2.isAccepted = false →
      ((makeMove E cfg room color payload now now₂ tid).1 = room ∨
       (makeMove E cfg room color payload now now₂ tid).1 = applyClockDecay E room now) ∧
      (makeMove E cfg room color payload now now₂ tid).1.pos = room.pos) := by
  by_cases h1 : isFinished E room = true
  · rw [makeMove_eq_gameOver E cfg room color payload now now₂ tid h1]
    constructor
    · constructor
      · intro hacc
        simp [MoveOutcome.isAccepted] at hacc
      · rintro ⟨ha, -, -, -⟩
        rw [h1] at ha
        simp at ha
    · intro _
      exact ⟨Or.inl rfl, rfl⟩
  · by_cases h2 : currentTurnColor E room = color
    · by_cases h3 : isFinished E (applyClockDecay E room now) = true
      · rw [makeMove_eq_timedOut E cfg room color payload now now₂ tid h1 h2 h3]
        constructor
        · constructor
          · intro hacc
            simp [MoveOutcome.isAccepted] at hacc
          · rintro ⟨-, -, hb, -⟩
            rw [h3] at hb
            simp at hb
        · intro _
          exact ⟨Or.inr rfl, applyClockDecay_pos E room now⟩
      · cases hm : E.move room.pos payload.fromSq payload.toSq Promo.q with
        | none =>
          rw [makeMove_eq_illegal E cfg room color payload now now₂ tid h1 h2 h3 hm]
          constructor
          · constructor
            · intro hacc
              simp [MoveOutcome.isAccepted] at hacc
            · rintro ⟨-, -, -, hs⟩
              simp at hs
          · intro _
            exact ⟨Or.inr rfl, applyClockDecay_pos E room now⟩
        | some p =>
          have e2 := makeMove_snd_accepted E cfg room color payload now now₂ tid p h1 h2 h3 hm
          constructor
          · constructor
            · intro _
              refine ⟨?_, h2, ?_, ?_⟩
              · simp only [Bool.not_eq_true] at h1
                exact h1
              · simp only [Bool.not_eq_true] at h3
                exact h3
              · rfl
            · intro _
              rw [e2]
              rfl
          · intro hrej
            rw [e2] at hrej
            cases hrej
    · rw [makeMove_eq_wrongTurn E cfg room color payload now now₂ tid h1 h2]
      constructor
      · constructor
        · intro hacc
          simp [MoveOutcome.isAccepted] at hacc
        · rintro ⟨-, hb, -, -⟩
          exact absurd hb h2
      · intro _
        exact ⟨Or.inl rfl, rfl⟩

theorem c1_witness :
    ((makeMove tE cfgD roomFin Color.white ⟨"a2", "a3", none⟩ 3 3 0).1 = roomFin ∨
     (makeMove tE cfgD roomFin Color.white ⟨"a2", "a3", none⟩ 3 3 0).1 =
       applyClockDecay tE roomFin 3) ∧
    (makeMove tE cfgD roomFin Color.white ⟨"a2", "a3", none⟩ 3 3 0).1.pos = roomFin.pos :=
  (c1_move_accept_reject tE cfgD roomFin Color.white ⟨"a2", "a3", none⟩ 3 3 0).2 (by decide)

/-- C6 counterexample: with white to move, `whiteMs = 3`, and black's budget
already at zero, the decay that exhausts white's time ends with
`forcedResult = white_wins_by_timeout` — the second `=== 0` check overwrites
the first — so the flag does not name the opponent of the side to move. -/
theorem c6_cex :
    tE.turn (roomRun 3 0).pos = Color.white ∧
    (applyClockDecay tE (roomRun 3 0) 10).clock.whiteMs = 0 ∧
    (applyClockDecay tE (roomRun 3 0) 10).forcedResult =
      some ForcedResult.white_wins_by_timeout ∧
    (applyClockDecay tE (roomRun 3 0) 10).forcedResult ≠
      some ForcedResult.black_wins_by_timeout := by decide

/-- C6 (amended): whenever a decay leaves the side to move with zero
remaining time, that same decay sets a timeout forced result, stops the
clock, and clears `drawOfferBy` and `rematchOffers`; the tag is
white-wins-by-timeout when the decayed black budget is zero and
black-wins-by-timeout otherwise (so it is the opponent-wins tag except in
the corner where white is to move and black's budget is also zero, in which
case the second zero-check overwrites the first).  This holds for every
caller of `applyClockDecay`, not only the periodic tick. -/
theorem c6_timeout_on_decay (E : Engine Pos) (room : Room Pos) (now last : Nat)
    (hrun : room.clock.running = true) (hfin : isFinished E room = false)
    (hlast : room.clock.lastTickAt = some last) (hel : (last : Int) < (now : Int))
    (hzero : (if E.turn room.pos = Color.white then
        (applyClockDecay E room now).clock.whiteMs
      else (applyClockDecay E room now).clock.blackMs) = 0) :
    (applyClockDecay E room now).forcedResult =
      some (if (applyClockDecay E room now).clock.blackMs = 0 then
        ForcedResult.white_wins_by_timeout else ForcedResult.black_wins_by_timeout) ∧
    (applyClockDecay E room now).clock.running = false ∧
    (applyClockDecay E room now).drawOfferBy = none ∧
    (applyClockDecay E room now).rematchOffers = RematchOffers.empty := by
  have hne : ¬((now : Int) - (last : Int) ≤ 0) := by omega
  by_cases hw : E.turn room.pos = Color.white
  · by_cases hb : room.clock.blackMs = 0
    · refine ⟨?_, ?_, ?_, ?_⟩ <;>
        simp [applyClockDecay, hrun, hfin, hlast, hne, hw, hb]
    · by_cases hw0 : (0 : Int) ⊔ (room.clock.whiteMs - ((now : Int) - (last : Int))) = 0
      · refine ⟨?_, ?_, ?_, ?_⟩ <;>
          simp [applyClockDecay, hrun, hfin, hlast, hne, hw, hb, hw0]
      · exfalso
        apply hw0
        simpa [applyClockDecay, hrun, hfin, hlast, hne, hw, hb, hw0] using hzero
  · by_cases hb0 : (0 : Int) ⊔ (room.clock.blackMs - ((now : Int) - (last : Int))) = 0
    · refine ⟨?_, ?_, ?_, ?_⟩ <;>
        simp [applyClockDecay, hrun, hfin, hlast, hne, hw, hb0]
    · exfalso
      apply hb0
      by_cases hwz : room.clock.whiteMs = 0 <;>
        simpa [applyClockDecay, hrun, hfin, hlast, hne, hw, hb0, hwz] using hzero

theorem c6_witness :
    (applyClockDecay tE (roomRun 3 200) 10).forcedResult =
      some (if (applyClockDecay tE (roomRun 3 200) 10).clock.blackMs = 0 then
        ForcedResult.white_wins_by_timeout else ForcedResult.black_wins_by_timeout) ∧
    (applyClockDecay tE (roomRun 3 200) 10).clock.running = false ∧
    (applyClockDecay tE (roomRun 3 200) 10).drawOfferBy = none ∧
    (applyClockDecay tE (roomRun 3 200) 10).rematchOffers = RematchOffers.empty :=
  c6_timeout_on_decay tE (roomRun 3 200) 10 0 (by decide) (by decide) (by decide)
    (by decide) (by decide)

theorem startClockIfReady_pos (E : Engine Pos) (room : Room Pos) (now : Nat) :
    (startClockIfReady E room now).pos = room.pos := by
  unfold startClockIfReady
  split
  · rfl
  split <;> rfl

theorem startClockIfReady_players (E : Engine Pos) (room : Room Pos) (now : Nat) :
    (startClockIfReady E room now).players = room.players := by
  unfold startClockIfReady
  split
  · rfl
  split <;> rfl

theorem startClockIfReady_drawOfferBy (E : Engine Pos) (room : Room Pos) (now : Nat) :
    (startClockIfReady E room now).drawOfferBy = room.drawOfferBy := by
  unfold startClockIfReady
  split
  · rfl
  split <;> rfl

theorem startClockIfReady_rematchOffers (E : Engine Pos) (room : Room Pos) (now : Nat) :
    (startClockIfReady E room now).rematchOffers = room.rematchOffers := by
  unfold startClockIfReady
  split
  · rfl
  split <;> rfl

theorem startClockIfReady_whiteMs (E : Engine Pos) (room : Room Pos) (now : Nat) :
    (startClockIfReady E room now).clock.whiteMs = room.clock.whiteMs := by
  unfold startClockIfReady
  split
  · rfl
  split <;> rfl

theorem startClockIfReady_blackMs (E : Engine Pos) (room : Room Pos) (now : Nat) :
    (startClockIfReady E room now).clock.blackMs = room.clock.blackMs := by
  unfold startClockIfReady
  split
  · rfl
  split <;> rfl

theorem startClockIfReady_incrementMs (E : Engine Pos) (room : Room Pos) (now : Nat) :
    (startClockIfReady E room now).clock.incrementMs = room.clock.incrementMs := by
  unfold startClockIfReady
  split
  · rfl
  split <;> rfl

theorem resetGameForRematch_pos (E : Engine Pos) (cfg : Config) (room : Room Pos)
    (now : Nat) : (resetGameForRematch E cfg room now).pos = E.init := by
  unfold resetGameForRematch
  dsimp only
  rw [startClockIfReady_pos]
  dsimp only
  split
  · split <;> rfl
  · rfl

theorem resetGameForRematch_forced (E : Engine Pos) (cfg : Config) (room : Room Pos)
    (now : Nat) : (resetGameForRematch E cfg room now).forcedResult = none := by
  unfold resetGameForRematch
  dsimp only
  rw [startClockIfReady_forced]
  dsimp only
  split
  · split <;> rfl
  · rfl

theorem resetGameForRematch_draw (E : Engine Pos) (cfg : Config) (room : Room Pos)
    (now : Nat) : (resetGameForRematch E cfg room now).drawOfferBy = none := by
  unfold resetGameForRematch
  dsimp only
  rw [startClockIfReady_drawOfferBy]
  dsimp only
  split
  · split <;> rfl
  · rfl

theorem resetGameForRematch_offers (E : Engine Pos) (cfg : Config) (room : Room Pos)
    (now : Nat) : (resetGameForRematch E cfg room now).rematchOffers = RematchOffers.empty := by
  unfold resetGameForRematch
  dsimp only
  rw [startClockIfReady_rematchOffers]
  dsimp only
  split
  · split <;> rfl
  · rfl

theorem resetGameForRematch_whiteMs (E : Engine Pos) (cfg : Config) (room : Room Pos)
    (now : Nat) : (resetGameForRematch E cfg room now).clock.whiteMs = cfg.initialMs := by
  unfold resetGameForRematch
  dsimp only
  rw [startClockIfReady_whiteMs]
  rfl

theorem resetGameForRematch_blackMs (E : Engine Pos) (cfg : Config) (room : Room Pos)
    (now : Nat) : (resetGameForRematch E cfg room now).clock.blackMs = cfg.initialMs := by
  unfold resetGameForRematch
  dsimp only
  rw [startClockIfReady_blackMs]
  rfl

theorem resetGameForRematch_incrementMs (E : Engine Pos) (cfg : Config) (room : Room Pos)
    (now : Nat) :
    (resetGameForRematch E cfg room now).clock.incrementMs = cfg.incrementMs := by
  unfold resetGameForRematch
  dsimp only
  rw [startClockIfReady_incrementMs]
  rfl

theorem resetGameForRematch_black (E : Engine Pos) (cfg : Config) (room : Room Pos)
    (now : Nat) (hai : room.ai.enabled = true) (b : String)
    (hbot : room.ai.botAddress = some b) :
    (resetGameForRematch E cfg room now).players.black = some b := by
  unfold resetGameForRematch
  dsimp only
  rw [startClockIfReady_players]
  dsimp only
  rw [if_pos hai, hbot]

theorem applyClockDecay_reset (E : Engine Pos) (cfg : Config) (room : Room Pos)
    (now : Nat) :
    applyClockDecay E (resetGameForRematch E cfg room now) now =
      resetGameForRematch E cfg room now := by
  unfold resetGameForRematch
  dsimp only
  exact applyClockDecay_startClock E _ now

/-- C8: on a finished room, `offer_rematch` performs the full reset (fresh
position, fresh clock at the configured budgets, cleared offers and forced
result, AI-held black seat when AI is enabled) exactly when the recorded
offer completes the set of both colors; a single color's offer leaves the
room finished with only the offer set changed — position, clock and
`forcedResult` untouched. -/
theorem c8_rematch_two_sided (E : Engine Pos) (cfg : Config) (room : Room Pos)
    (color : Color) (now : Nat) (hfin : isFinished E room = true) :
    ((room.rematchOffers.add color).size = 2 →
      (offerRematch E cfg room color now).1 =
        resetGameForRematch E cfg
          { room with rematchOffers := room.rematchOffers.add color } now ∧
      (offerRematch E cfg room color now).1.pos = E.init ∧
      (offerRematch E cfg room color now).1.forcedResult = none ∧
      (offerRematch E cfg room color now).1.drawOfferBy = none ∧
      (offerRematch E cfg room color now).1.rematchOffers = RematchOffers.empty ∧
      (offerRematch E cfg room color now).1.clock.whiteMs = cfg.initialMs ∧
      (offerRematch E cfg room color now).1.clock.blackMs = cfg.initialMs ∧
      (offerRematch E cfg room color now).1.clock.incrementMs = cfg.incrementMs ∧
      (room.ai.enabled = true → ∀ b : String, room.ai.botAddress = some b →
        (offerRematch E cfg room color now).1.players.black = some b)) ∧
    ((room.rematchOffers.add color).size ≠ 2 →
      (offerRematch E cfg room color now).1 =
        { room with rematchOffers := room.rematchOffers.add color } ∧
      isFinished E (offerRematch E cfg room color now).1 = true) := by
  have hng : ¬(!isFinished E room) = true := by simp [hfin]
  constructor
  · intro hsz
    have e : (offerRematch E cfg room color now).1 =
        resetGameForRematch E cfg
          { room with rematchOffers := room.rematchOffers.add color } now := by
      unfold offerRematch
      rw [if_neg hng]
      dsimp only
      rw [if_pos hsz, applyClockDecay_reset]
    refine ⟨e, ?_, ?_, ?_, ?_, ?_, ?_, ?_, ?_⟩
    · rw [e, resetGameForRematch_pos]
    · rw [e, resetGameForRematch_forced]
    · rw [e, resetGameForRematch_draw]
    · rw [e, resetGameForRematch_offers]
    · rw [e, resetGameForRematch_whiteMs]
    · rw [e, resetGameForRematch_blackMs]
    · rw [e, resetGameForRematch_incrementMs]
    · intro hai b hbot
      rw [e]
      exact resetGameForRematch_black E cfg _ now hai b hbot
  · intro hsz
    have e : (offerRematch E cfg room color now).1 =
        { room with rematchOffers := room.rematchOffers.add color } := by
      unfold offerRematch
      rw [if_neg hng]
      dsimp only
      rw [if_neg hsz]
      exact applyClockDecay_of_finished E _ now hfin
    exact ⟨e, by rw [e]; exact hfin⟩

theorem c8_witness :
    (offerRematch tE cfgD roomFinB Color.white 9).1.forcedResult = none ∧
    (offerRematch tE cfgD roomFinB Color.white 9).1.pos = tE.init ∧
    (offerRematch tE cfgD roomFinB Color.white 9).1.clock.whiteMs = cfgD.initialMs ∧
    (offerRematch tE cfgD roomFin Color.white 9).1.forcedResult =
      some ForcedResult.draw_agreed := by
  have h2 := (c8_rematch_two_sided tE cfgD roomFinB Color.white 9 (by decide)).1 (by decide)
  have h1 := (c8_rematch_two_sided tE cfgD roomFin Color.white 9 (by decide)).2 (by decide)
  refine ⟨h2.2.2.1, h2.2.1, h2.2.2.2.2.2.1, ?_⟩
  rw [h1.1]
  rfl

/-- C2 (code evaluation at the failing input): the creator of a fresh room
(black seat never filled, zero moves) closes their only connection; the
seated-player branch of `removeClient` fires first, its forfeit evaluation
no-ops because the black seat is empty, and the handler returns — the room
survives in both the in-memory registry and the durable store, contradicting
the claimed deletion. -/
theorem c2_room_leak :
    roomC2.players.black = none ∧
    tE.historyLen roomC2.pos = 0 ∧
    (removeClient tE cfgD sysC2 wsA (fun _ => "m") 50 7 ≠
      ⟨eraseA sysC2.active "r1", eraseA sysC2.store "r1"⟩) ∧
    (lookupA (removeClient tE cfgD sysC2 wsA (fun _ => "m") 50 7).active "r1").isSome =
      true ∧
    lookupA (removeClient tE cfgD sysC2 wsA (fun _ => "m") 50 7).store "r1" =
      lookupA sysC2.store "r1" ∧
    (lookupA sysC2.store "r1").isSome = true := by decide

/-- C3 counterexample: a `send_chat` whose text is empty after trimming is
rejected, yet it still mutates the room — the sender, having no roster
entry, is implicitly registered before the text is validated. -/
theorem c3_cex :
    (sendChat tE (roomRun 100 100) "0xa" ⟨"", "", ""⟩ "m1" 5).2 = false ∧
    (sendChat tE (roomRun 100 100) "0xa" ⟨"", "", ""⟩ "m1" 5).1.chat.members ≠
      (roomRun 100 100).chat.members ∧
    (sendChat tE (roomRun 100 100) "0xa" ⟨"", "", ""⟩ "m1" 5).1.chat.messages =
      (roomRun 100 100).chat.messages := by decide

/-- C3 (amended): a `send_chat` whose text is empty after trimming or longer
than 280 characters is rejected and leaves the message log, position, clock,
result, offers, seats and forfeit state unchanged; the roster is unchanged
whenever the sender already has a valid entry, but a sender without one is
still implicitly registered (the fallback member is written before the text
is validated). -/
theorem c3_reject_no_message (E : Engine Pos) (room : Room Pos) (address : String)
    (payload : ChatPayload) (msgId : String) (now : Nat)
    (hbad : jsTrim payload.text = "" ∨ 280 < jsLen (jsTrim payload.text)) :
    (sendChat E room address payload msgId now).2 = false ∧
    (sendChat E room address payload msgId now).1.chat.messages = room.chat.messages ∧
    (sendChat E room address payload msgId now).1.pos = room.pos ∧
    (sendChat E room address payload msgId now).1.clock = room.clock ∧
    (sendChat E room address payload msgId now).1.forcedResult = room.forcedResult ∧
    (sendChat E room address payload msgId now).1.drawOfferBy = room.drawOfferBy ∧
    (sendChat E room address payload msgId now).1.rematchOffers = room.rematchOffers ∧
    (sendChat E room address payload msgId now).1.players = room.players ∧
    (sendChat E room address payload msgId now).1.forfeit = room.forfeit ∧
    (∀ m : Member, normalizeChatMember (lookupA room.chat.members address) address = some m →
      (sendChat E room address payload msgId now).1.chat.members = room.chat.members) ∧
    (normalizeChatMember (lookupA room.chat.members address) address = none →
      (sendChat E room address payload msgId now).1.chat.members =
        setA room.chat.members address
          ((normalizeChatMember
            (some ⟨if payload.username = "" then "Player-" ++ jsTake 4 (jsDrop 2 address)
                   else payload.username, payload.avatar⟩) address).getD
            ⟨"Player-" ++ jsTake 4 (jsDrop 2 address), dicebearUrl address⟩)) := by
  cases hmem : normalizeChatMember (lookupA room.chat.members address) address with
  | some m =>
    unfold sendChat
    rw [hmem]
    dsimp only
    split
    · refine ⟨rfl, rfl, rfl, rfl, rfl, rfl, rfl, rfl, rfl, fun m' _ => rfl, fun hno => ?_⟩
      simp at hno
    · rename_i hcond
      exfalso
      apply hcond
      rcases hbad with hb | hb <;> simp [hb]
  | none =>
    unfold sendChat
    rw [hmem]
    dsimp only
    split
    · refine ⟨rfl, rfl, rfl, rfl, rfl, rfl, rfl, rfl, rfl, fun m' hm' => ?_, fun _ => rfl⟩
      simp at hm'
    · rename_i hcond
      exfalso
      apply hcond
      rcases hbad with hb | hb <;> simp [hb]

theorem c3_witness :
    (sendChat tE roomNorm "0xa" ⟨"x", "y", ""⟩ "m2" 6).2 = false ∧
    (sendChat tE roomNorm "0xa" ⟨"x", "y", ""⟩ "m2" 6).1.chat.messages =
      roomNorm.chat.messages ∧
    (sendChat tE roomNorm "0xa" ⟨"x", "y", ""⟩ "m2" 6).1.chat.members =
      roomNorm.chat.members := by
  have h := c3_reject_no_message tE roomNorm "0xa" ⟨"x", "y", ""⟩ "m2" 6 (Or.inl (by decide))
  exact ⟨h.1, h.2.1, h.2.2.2.2.2.2.2.2.2.1 ⟨"alice", "av"⟩ (by decide)⟩

theorem member_norm_id (m : Member) (a : String) (h : MemberNormal m) :
    normalizeChatMember (some m) a = some m := by
  obtain ⟨h1, h2, h3, h4⟩ := h
  unfold normalizeChatMember
  dsimp only
  rw [h1, if_neg h2, h3, if_neg h4]

theorem message_norm_id (fresh : String) (now : Nat) (m : Message) (h : MessageNormal m) :
    normalizeChatMessage fresh now m = m := by
  obtain ⟨h1, h2, h3, h4, h5, h6, h7, h8⟩ := h
  unfold normalizeChatMessage
  rw [if_neg h1, if_neg h2, h3, h4, if_neg h5, h6, h7]

theorem members_norm (l : List (String × Member)) (h : ∀ p ∈ l, MemberNormal p.2) :
    l.filterMap (fun p => (normalizeChatMember (some p.2) p.1).map (fun m => (p.1, m))) =
      l := by
  induction l with
  | nil => rfl
  | cons a t ih =>
    have hfa : Option.map (fun m => (a.1, m)) (normalizeChatMember (some a.2) a.1) =
        some a := by
      rw [member_norm_id a.2 a.1 (h a (by simp))]
      rfl
    rw [List.filterMap_cons, hfa]
    rw [ih (fun p hp => h p (by simp [hp]))]

theorem msgs_norm_aux (fresh : Nat → String) (now : Nat) (l : List Message) (n : Nat)
    (h : ∀ m ∈ l, MessageNormal m) :
    (((List.enumFrom n l).map (fun p => normalizeChatMessage (fresh p.1) now p.2)).filter
      (fun m => m.text ≠ "")) = l := by
  induction l generalizing n with
  | nil => rfl
  | cons a t ih =>
    have ha := h a (by simp)
    rw [List.enumFrom_cons]
    dsimp only [List.map]
    rw [message_norm_id (fresh n) now a ha]
    rw [List.filter_cons]
    rw [if_pos (by simpa using ha.2.2.2.2.2.2.2)]
    rw [ih (n + 1) (fun m hm => h m (by simp [hm]))]

theorem normalizeChatState_id (c : Chat) (fresh : Nat → String) (now : Nat)
    (h : ChatNormal c) : normalizeChatState (some c) fresh now = c := by
  obtain ⟨hm, hmsg⟩ := h
  rcases c with ⟨mem, msgs⟩
  unfold normalizeChatState
  dsimp only [Option.getD]
  rw [members_norm mem hm]
  rw [show msgs.enum = List.enumFrom 0 msgs from rfl]
  rw [msgs_norm_aux fresh now msgs 0 hmsg]

/-- C5 counterexample: the round-trip does not reproduce every reachable
chat roster.  An accepted `send_chat` from a sender with no roster entry and
a 25-character username whose 24th character is a space stores
`username.trim().slice(0, 24)` — a name with a trailing space; on restore
`normalizeChatState` re-trims it, so the reconstructed roster differs from
the live one. -/
theorem c5_cex :
    (sendChat tE (roomRun 100 100) "0xa"
      ⟨"aaaaaaaaaaaaaaaaaaaaaaa b", "", "hi"⟩ "m1" 5).2 = true ∧
    lookupA roomBadChat.chat.members "0xa" =
      some ⟨"aaaaaaaaaaaaaaaaaaaaaaa ", dicebearUrl "0xa"⟩ ∧
    (fromSnapshot tE cfgD (toSnapshot tE roomBadChat 6) (fun _ => "u") 7).chat.members ≠
      roomBadChat.chat.members ∧
    (fromSnapshot tE cfgD (toSnapshot tE roomBadChat 6) (fun _ => "u") 7).chat ≠
      roomBadChat.chat := by decide

/-- C5 (amended): reconstructing a room from its serialized snapshot
reproduces the position (up to FEN, under the engine's parse contract),
players, forcedResult, drawOfferBy, rematchOffers, clock and AI fields,
while the forfeit state comes back fully null and the connection set comes
back empty; the chat roster and messages are reproduced exactly when the
stored entries are trim/slice-stable (which the `send_chat` fallback can
violate, as the counterexample shows) — otherwise restore re-normalizes
them. -/
theorem c5_snapshot_roundtrip (E : Engine Pos) (cfg : Config) (room : Room Pos)
    (now : Nat) (fresh : Nat → String) (now₂ : Nat)
    (hfen : E.fen (E.ofFen (E.fen room.pos)) = E.fen room.pos) :
    E.fen (fromSnapshot E cfg (toSnapshot E room now) fresh now₂).pos = E.fen room.pos ∧
    (fromSnapshot E cfg (toSnapshot E room now) fresh now₂).players = room.players ∧
    (fromSnapshot E cfg (toSnapshot E room now) fresh now₂).forcedResult =
      room.forcedResult ∧
    (fromSnapshot E cfg (toSnapshot E room now) fresh now₂).drawOfferBy =
      room.drawOfferBy ∧
    (fromSnapshot E cfg (toSnapshot E room now) fresh now₂).rematchOffers =
      room.rematchOffers ∧
    (fromSnapshot E cfg (toSnapshot E room now) fresh now₂).clock = room.clock ∧
    (fromSnapshot E cfg (toSnapshot E room now) fresh now₂).ai = room.ai ∧
    (fromSnapshot E cfg (toSnapshot E room now) fresh now₂).forfeit =
      (⟨none, none, none⟩ : Forfeit) ∧
    (fromSnapshot E cfg (toSnapshot E room now) fresh now₂).clients = [] ∧
    (ChatNormal room.chat →
      (fromSnapshot E cfg (toSnapshot E room now) fresh now₂).chat = room.chat) := by
  refine ⟨hfen, rfl, rfl, rfl, ?_, rfl, rfl, rfl, rfl, ?_⟩
  · show RematchOffers.ofList ((some room.rematchOffers.toList).getD []) =
      room.rematchOffers
    dsimp only [Option.getD]
    rcases room.rematchOffers with ⟨w, b⟩
    cases w <;> cases b <;> rfl
  · intro hchat
    exact normalizeChatState_id room.chat fresh now₂ hchat

theorem c5_witness :
    tE.fen (fromSnapshot tE cfgD (toSnapshot tE roomNorm 5) (fun _ => "u") 6).pos =
      tE.fen roomNorm.pos ∧
    (fromSnapshot tE cfgD (toSnapshot tE roomNorm 5) (fun _ => "u") 6).clock =
      roomNorm.clock ∧
    (fromSnapshot tE cfgD (toSnapshot tE roomNorm 5) (fun _ => "u") 6).chat =
      roomNorm.chat ∧
    (fromSnapshot tE cfgD (toSnapshot tE roomNorm 5) (fun _ => "u") 6).forfeit =
      (⟨none, none, none⟩ : Forfeit) ∧
    (fromSnapshot tE cfgD (toSnapshot tE roomNorm 5) (fun _ => "u") 6).clients = [] := by
  have h := c5_snapshot_roundtrip tE cfgD roomNorm 5 (fun _ => "u") 6 rfl
  exact ⟨h.1, h.2.2.2.2.2.1, h.2.2.2.2.2.2.2.2.2 (by decide), h.2.2.2.2.2.2.2.1,
    h.2.2.2.2.2.2.2.2.1⟩

theorem maybeStartForfeitTimer_spec (E : Engine Pos) (cfg : Config) (room : Room Pos)
    (c : Color) (now tid : Nat) :
    maybeStartForfeitTimer E cfg room c now tid = (room, false) ∨
    ((maybeStartForfeitTimer E cfg room c now tid).2 = true ∧
     (maybeStartForfeitTimer E cfg room c now tid).1.forfeit.timer = some tid) := by
  unfold maybeStartForfeitTimer
  dsimp only
  split
  · exact Or.inl rfl
  split
  · exact Or.inl rfl
  split
  · exact Or.inl rfl
  split
  · exact Or.inl rfl
  · right
    refine ⟨rfl, ?_⟩
    rw [applyClockDecay_forfeit]

theorem timerInv_cleared (s : TSys Pos) (hinv : TimerInv s) :
    (match s.room.forfeit.timer with
     | some old => s.pending.filter (fun p => p.1 ≠ old)
     | none => s.pending) = [] := by
  cases ht : s.room.forfeit.timer with
  | none =>
    dsimp only
    cases hp : s.pending with
    | nil => rfl
    | cons a t =>
      exfalso
      have h2 := hinv.2 a (by rw [hp]; simp)
      rw [ht] at h2
      cases h2
  | some old =>
    dsimp only
    rw [List.filter_eq_nil_iff]
    intro a ha
    have h2 := hinv.2 a ha
    rw [ht] at h2
    injection h2 with h2
    simp [h2]

/-- C7: the forfeit-timer subsystem keeps at most one pending timer per room
(arming a new one first cancels the prior one), a reconnection of the
flagged color empties the pending set (so no forfeit can fire for that
disconnection), and even a firing timer re-validates: when the flagged color
is online at expiry the callback only cancels and decays, and the forced
result it leaves can only be the pre-existing one or a clock timeout — never
a forfeit tag. -/
theorem c7_forfeit_timer (E : Engine Pos) (cfg : Config) :
    (∀ (s : TSys Pos) (c : Color) (now : Nat), TimerInv s →
       TimerInv (maybeStartForfeitTimerT E cfg s c now) ∧
       (maybeStartForfeitTimerT E cfg s c now).pending.length ≤ 1) ∧
    (∀ (s : TSys Pos) (tid now : Nat), TimerInv s → TimerInv (fireForfeitT E s tid now)) ∧
    (∀ (s : TSys Pos) (c : Color) (now : Nat), TimerInv s →
       TimerInv (maybeClearForfeitOnReconnectT E s c now)) ∧
    (∀ (s : TSys Pos) (c : Color) (now : Nat), TimerInv s →
       s.room.forfeit.color = some c → isPlayerOnline s.room c = true →
       (maybeClearForfeitOnReconnectT E s c now).pending = []) ∧
    (∀ (room : Room Pos) (c : Color) (now : Nat), isPlayerOnline room c = true →
       fireForfeit E room c now = applyClockDecay E (clearForfeitTimer room) now ∧
       ∀ fr : ForcedResult, (fireForfeit E room c now).forcedResult = some fr →
         room.forcedResult = some fr ∨ fr = ForcedResult.white_wins_by_timeout ∨
         fr = ForcedResult.black_wins_by_timeout) := by
  refine ⟨?_, ?_, ?_, ?_, ?_⟩
  · intro s c now hinv
    unfold maybeStartForfeitTimerT
    rcases maybeStartForfeitTimer_spec E cfg s.room c now s.nextId with heq | ⟨h2, ht⟩
    · rw [heq]
      dsimp only
      rw [if_neg (by simp : ¬(false = true))]
      exact ⟨hinv, hinv.1⟩
    · rw [if_pos h2]
      rw [timerInv_cleared s hinv]
      refine ⟨⟨by simp, ?_⟩, by simp⟩
      intro p hp
      simp only [List.mem_singleton] at hp
      subst hp
      exact ht
  · intro s tid now hinv
    unfold fireForfeitT
    cases hf : s.pending.find? (fun p => p.1 = tid) with
    | none => exact hinv
    | some pc =>
      have hmem := List.mem_of_find?_eq_some hf
      have hpc : pc.1 = tid := by simpa using List.find?_some hf
      have hl : s.pending = [pc] := by
        cases hp : s.pending with
        | nil =>
          rw [hp] at hmem
          cases hmem
        | cons b t =>
          have h1 := hinv.1
          rw [hp] at h1
          have ht0 : t = [] := by
            rcases t with _ | ⟨x, t2⟩
            · rfl
            · exfalso
              simp [List.length_cons] at h1
          rw [hp, ht0] at hmem
          rw [ht0]
          have hb : pc = b := by simpa using hmem
          rw [hb]
      have hfil : s.pending.filter (fun p => p.1 ≠ tid) = [] := by
        rw [hl]
        simp [hpc]
      rw [hfil]
      exact ⟨by simp, by simp⟩
  · intro s c now hinv
    unfold maybeClearForfeitOnReconnectT
    split
    · dsimp only [clearForfeitTimerT]
      rw [timerInv_cleared s hinv]
      exact ⟨by simp, by simp⟩
    · exact hinv
  · intro s c now hinv hcol hon
    unfold maybeClearForfeitOnReconnectT
    rw [if_pos (by simp [hcol, hon])]
    dsimp only [clearForfeitTimerT]
    exact timerInv_cleared s hinv
  · intro room c now hon
    have e : fireForfeit E room c now = applyClockDecay E (clearForfeitTimer room) now := by
      unfold fireForfeit
      dsimp only
      split
      · rfl
      · rfl
    refine ⟨e, ?_⟩
    intro fr hfr
    rw [e] at hfr
    rcases applyClockDecay_forcedResult E (clearForfeitTimer room) now with h | h | h
    · rw [hfr] at h
      exact Or.inl h.symm
    · rw [hfr] at h
      injection h with h
      exact Or.inr (Or.inl h)
    · rw [hfr] at h
      injection h with h
      exact Or.inr (Or.inr h)

theorem c7_witness :
    TimerInv (maybeStartForfeitTimerT tE cfgD tsysP Color.black 10) ∧
    (maybeClearForfeitOnReconnectT tE tsysR Color.black 10).pending = [] ∧
    fireForfeit tE tsysR.room Color.black 70 =
      applyClockDecay tE (clearForfeitTimer tsysR.room) 70 := by
  refine ⟨((c7_forfeit_timer tE cfgD).1 tsysP Color.black 10 (by decide)).1, ?_, ?_⟩
  · exact (c7_forfeit_timer tE cfgD).2.2.2.1 tsysR Color.black 10 (by decide) (by decide)
      (by decide)
  · exact ((c7_forfeit_timer tE cfgD).2.2.2.2 tsysR.room Color.black 70 (by decide)).1

/-- Sanity check that the forfeit branch of the expiry callback is live: with
black fully offline and white connected, expiry forces the forfeit result. -/
theorem fireForfeit_flags_offline :
    (fireForfeit tE
      { roomRun 100 100 with clients := [⟨3, some "0xa", some "r1", 1⟩] }
      Color.black 70).forcedResult =
    some ForcedResult.white_wins_by_forfeit := by decide

end Chesso
